import Mathlib

/-!
Formal model of the Borealis HDF5 validation and DARN DMap conversion code
in `pydarn/io/borealis/borealis.py`.

Modelling conventions:
* Python/numpy floating point values are modelled as exact rationals, kept as
  an unnormalized numerator/denominator pair (`Fl`) so that every arithmetic
  operation is a structural integer computation that the kernel can evaluate;
  the represented value of `⟨n, d⟩` is the rational `n / d`.  Floating point
  rounding is abstracted away (values are tracked exactly).
* Complex numpy values are pairs `(re, im)` of `Fl`.
* numpy arrays are lists; a reshaped `k`-dimensional array is accessed through
  its row-major flat index.
* Python dictionaries with string keys are association lists (when the order
  and the values matter) or `Finset String` (when only the key set matters).
* A raised Python exception is the `Except.error` side of `Except PyErr`;
  Python evaluation order of fallible subexpressions is preserved by the
  order of monadic binds.
-/

namespace BorealisPy

/-- Exact scalar: the rational `n / d`, as an unnormalized pair.  All
operations below keep `0 < d` when their inputs have `0 < d`, except division
by a value with numerator `0` (where the Python source would fault anyway). -/
structure Fl where
  n : ℤ
  d : ℤ
  deriving DecidableEq

/-- Addition of exact scalars. -/
def Fl.add (a b : Fl) : Fl := ⟨a.n * b.d + b.n * a.d, a.d * b.d⟩

/-- Subtraction of exact scalars. -/
def Fl.sub (a b : Fl) : Fl := ⟨a.n * b.d - b.n * a.d, a.d * b.d⟩

/-- Multiplication of exact scalars. -/
def Fl.mul (a b : Fl) : Fl := ⟨a.n * b.n, a.d * b.d⟩

/-- Division of exact scalars; the sign is moved into the numerator so that
the denominator stays nonnegative. -/
def Fl.div (a b : Fl) : Fl :=
  if 0 ≤ b.n then ⟨a.n * b.d, a.d * b.n⟩ else ⟨-(a.n * b.d), -(a.d * b.n)⟩

instance : Add Fl := ⟨Fl.add⟩
instance : Sub Fl := ⟨Fl.sub⟩
instance : Mul Fl := ⟨Fl.mul⟩
instance : Div Fl := ⟨Fl.div⟩
instance : OfNat Fl m := ⟨⟨(m : ℤ), 1⟩⟩
instance : Neg Fl := ⟨fun a => ⟨-a.n, a.d⟩⟩

/-- An integer as an exact scalar. -/
def Fl.ofInt (z : ℤ) : Fl := ⟨z, 1⟩

/-- Semantic zero test (`x == 0` on a Python float). -/
def Fl.isZeroB (a : Fl) : Bool := a.n == 0

/-- Mathematical floor of the represented value (`math.floor`); correct
whenever `0 < d`. -/
def Fl.floorZ (a : Fl) : ℤ := Int.fdiv a.n a.d

/-- Truncation toward zero, the behaviour of Python `int()` and of numpy
float-to-integer casts; correct whenever `0 < d`. -/
def Fl.truncZ (a : Fl) : ℤ := Int.tdiv a.n a.d

/-- Python `math.fmod(x, 1.0)`: `x` minus its truncation toward zero (the
result keeps the sign of `x`). -/
def Fl.fmodOne (a : Fl) : Fl := a - Fl.ofInt a.truncZ

/-- Python `round` (round half to even); correct whenever `0 < d`. -/
def pyRound (a : Fl) : ℤ :=
  let f := a.floorZ
  let twice := 2 * (a.n - f * a.d)
  if twice < a.d then f
  else if a.d < twice then f + 1
  else if 2 ∣ f then f else f + 1

/-- Complex sample: real and imaginary part. -/
abbrev Cx : Type := Fl × Fl

/-- Complex zero. -/
def cxZero : Cx := (0, 0)

/-- Squared complex magnitude `re*re + im*im`.  The source computes the
magnitude `(re**2 + im**2)**0.5`; square root is strictly monotone on
nonnegative reals, so equalities between magnitudes are equivalent to
equalities between these squared magnitudes. -/
def magSq (z : Cx) : Fl := z.1 * z.1 + z.2 * z.2

/-- Multiply a complex value by a scalar. -/
def cxScale (c : Fl) (z : Cx) : Cx := (c * z.1, c * z.2)

/-- Two's-complement reduction to a signed 8-bit value, as `np.int8` does on
an out-of-range Python integer. -/
def toInt8 (z : ℤ) : ℤ := (z + 128) % 256 - 128

/-- Two's-complement reduction to a signed 16-bit value, as `np.int16` does. -/
def toInt16 (z : ℤ) : ℤ := (z + 32768) % 65536 - 32768

/-- Two's-complement reduction to a signed 32-bit value, as `np.int32` does. -/
def toInt32 (z : ℤ) : ℤ := (z + 2147483648) % 4294967296 - 2147483648

/-- The Python exceptions that the modelled code can raise.  Constructor
arguments follow the constructor arguments of the exception classes of
`pydarn.borealis_exceptions` (record name, offending key set, ...); messages
that only interpolate values are dropped. -/
inductive PyErr where
  /-- Python `KeyError` from a failed dictionary lookup. -/
  | keyError (key : String)
  /-- Python `IndexError` from a failed sequence index. -/
  | indexError
  /-- Python `ValueError`, e.g. from `np.int8('x')` or a failed `reshape`. -/
  | valueError
  /-- Python `AttributeError`: the named attribute does not exist. -/
  | attributeError (attr : String)
  /-- Python `NameError`: the named global is not defined. -/
  | nameError (missingName : String)
  /-- `BorealisFieldMissingError(record_name, missing_fields)`. -/
  | fieldMissing (recordName : String) (missingFields : Finset String)
  /-- `BorealisDataFormatTypeError(incorrect_types, record_name)`: the mapping
  from offending key to the description of the expected type. -/
  | dataFormatType (incorrectTypes : List (String × String)) (recordName : String)
  /-- `BorealisConversionTypesError(filename, origin_filetype, dmap_filetype)`. -/
  | conversionTypes (filename origin target : String)
  /-- `BorealisConvert2IqdatError` for the `blanked_samples` mismatch,
  naming the offending record. -/
  | convert2IqdatBlanked (recordName : String)
  /-- `BorealisConvert2IqdatError` for a non-zero `pulse_phase_offset`,
  naming the offending record. -/
  | convert2IqdatPhase (recordName : String)
  /-- `BorealisConvert2RawacfError` for the `blanked_samples` mismatch,
  naming the offending record. -/
  | convert2RawacfBlanked (recordName : String)
  deriving DecidableEq

/-- Python list indexing `l[i]` for a nonnegative index. -/
def pyIdx {α : Type} (l : List α) (i : ℕ) : Except PyErr α :=
  match l.get? i with
  | some a => .ok a
  | none => .error .indexError

/-- Python list indexing `l[-i]` (an index counted from the end, `0 < i`). -/
def pyIdxFromEnd {α : Type} (l : List α) (i : ℕ) : Except PyErr α :=
  if h : 0 < i ∧ i ≤ l.length then .ok (l.get ⟨l.length - i, by omega⟩)
  else .error .indexError

/-- Python dictionary lookup `d[k]` on an association list. -/
def pyDictGet {α : Type} (d : List (String × α)) (k : String) : Except PyErr α :=
  match d.find? (fun p => p.1 == k) with
  | some p => .ok p.2
  | none => .error (.keyError k)

/-- Left-to-right effectful map over a list, short-circuiting on the first
error: the shape of a Python `for` loop that appends to a result list. -/
def mapExcept {α β : Type} (f : α → Except PyErr β) : List α → Except PyErr (List β)
  | [] => .ok []
  | a :: as => do
    let b ← f a
    let bs ← mapExcept f as
    pure (b :: bs)

/-- Like `mapExcept` but the function also receives the position, mirroring
Python `for i, a in enumerate(l)` starting at position `i₀`. -/
def mapIdxExcept {α β : Type} (f : ℕ → α → Except PyErr β) : ℕ → List α → Except PyErr (List β)
  | _, [] => .ok []
  | i, a :: as => do
    let b ← f i a
    let bs ← mapIdxExcept f (i + 1) as
    pure (b :: bs)

/-- Splitting helper with explicit fuel (`fuel ≥` the remaining length). -/
def splitOnAux (sep : List Char) : ℕ → List Char → List (List Char)
  | _, [] => [[]]
  | 0, s => [s]
  | fuel + 1, c :: rest =>
    if sep.isPrefixOf (c :: rest) ∧ sep ≠ [] then
      [] :: splitOnAux sep fuel ((c :: rest).drop sep.length)
    else
      match splitOnAux sep fuel rest with
      | [] => [[c]]
      | p :: ps => (c :: p) :: ps

/-- Python `s.split(sep)` for a nonempty separator: split at every leftmost
non-overlapping occurrence; `n` pieces of separator yield `n+1` parts. -/
def splitOnChars (sep s : List Char) : List (List Char) := splitOnAux sep s.length s

/-- Join parts with a separator inserted between consecutive parts: the shape
of the loop in `bfiq2darniqdat` that re-joins `basename.split("hdf5")` with
`'dmap'` between the pieces. -/
def joinWithChars (sep : List Char) : List (List Char) → List Char
  | [] => []
  | [p] => p
  | p :: q :: ps => p ++ sep ++ joinWithChars sep (q :: ps)

/-- `os.path.basename` for the simple paths the source handles: the part
after the last `/` (no trailing-slash or root-path special cases). -/
def pyBasenameChars (s : List Char) : List Char :=
  (splitOnChars ['/'] s).getLastD []

/-- `os.path.dirname` for the simple paths the source handles: everything
before the last `/`, empty when there is no `/`. -/
def pyDirnameChars (s : List Char) : List Char :=
  joinWithChars ['/'] ((splitOnChars ['/'] s).dropLast)

/-- Parse a decimal digit string as an integer, the success/failure behaviour
of `np.int16('...')` / `np.int8('...')` on a string argument: all-digit
strings parse, anything else raises `ValueError`. -/
def parseDigits (s : List Char) : Except PyErr ℤ :=
  if s ≠ [] ∧ s.all Char.isDigit then
    .ok (s.foldl (fun acc c => acc * 10 + ((c.toNat : ℤ) - 48)) 0)
  else .error .valueError

/-- The fixed 3-letter radar code to station id table `code_to_stid` at the
top of `borealis.py`, in source order. -/
def code_to_stid : List (String × ℤ) :=
  [("tst", 0), ("gbr", 1), ("sch", 2), ("kap", 3), ("hal", 4), ("sas", 5),
   ("pgr", 6), ("kod", 7), ("sto", 8), ("pyk", 9), ("han", 10), ("san", 11),
   ("sys", 12), ("sye", 13), ("tig", 14), ("ker", 15), ("ksr", 16),
   ("unw", 18), ("zho", 19), ("mcm", 20), ("fir", 21), ("sps", 22),
   ("bpk", 24), ("wal", 32), ("bks", 33), ("hok", 40), ("hkw", 41),
   ("inv", 64), ("rkn", 65), ("cly", 66), ("dce", 96), ("svb", 128),
   ("fhw", 204), ("fhe", 205), ("cvw", 206), ("cve", 207), ("adw", 208),
   ("ade", 209), ("azw", 210), ("aze", 211), ("sve", 501), ("svw", 502),
   ("ire", 504), ("irw", 505), ("kae", 506), ("kaw", 507), ("eje", 508),
   ("ejw", 509), ("she", 510), ("shw", 511), ("ekb", 512)]

/-- `BorealisUtilities.dict_key_diff`: keys of the first dictionary absent
from the second. -/
def dict_key_diff (d1 d2 : Finset String) : Finset String := d1 \ d2

/-- `BorealisUtilities.dict_list2set`: union of the key sets of a list of
dictionaries. -/
def dict_list2set (dictList : List (Finset String)) : Finset String :=
  dictList.foldl (fun a b => a ∪ b) ∅

/-- `BorealisUtilities.missing_field_check`: union the nonempty differences
`file_struct \ record` over the structure list, and raise
`BorealisFieldMissingError` with that union when it is nonempty. -/
def missing_field_check (fileStructList : List (Finset String))
    (recordKeys : Finset String) (recordName : String) : Except PyErr Unit :=
  let missingFields := fileStructList.foldl (fun acc fs =>
    let diffFields := dict_key_diff fs recordKeys
    if diffFields.card ≠ 0 then acc ∪ diffFields else acc) ∅
  if 0 < missingFields.card then .error (.fieldMissing recordName missingFields)
  else .ok ()

/-- A Python runtime type tag: `ndarray` (all numpy arrays have this type,
whatever their dtype) or an opaque non-array type. -/
inductive PyType where
  | ndarray
  | tag (idx : ℕ)
  deriving DecidableEq

/-- A record value as far as the type check is concerned: a scalar of some
runtime type, or a numpy array of some element dtype. -/
inductive PyVal where
  | scalar (t : PyType)
  | arr (dtype : PyType)
  deriving DecidableEq

/-- Python `type(v)`. -/
def PyVal.typeOf : PyVal → PyType
  | .scalar t => t
  | .arr _ => .ndarray

/-- The access `v.dtype.type`: only numpy arrays have it; on a scalar it
raises `AttributeError`. -/
def PyVal.dtypeType : PyVal → Except PyErr PyType
  | .arr d => .ok d
  | .scalar _ => .error (.attributeError "dtype")

/-- Printable description of an expected type (`str(t)` resp.
`'np.ndarray of ' + str(t)` in the source); kept abstract. -/
def describeType : PyType → String
  | .ndarray => "ndarray"
  | .tag _ => "type"

/-- One entry of the first dict comprehension in
`BorealisUtilities.incorrect_types_check`: look the key up in the record and
compare the runtime type with the declared one. -/
def attrMismatchStep (record : List (String × PyVal)) (acc : List (String × String))
    (kv : String × PyType) : Except PyErr (List (String × String)) := do
  let v ← pyDictGet record kv.1
  if v.typeOf ≠ kv.2 then pure (acc ++ [(kv.1, describeType kv.2)]) else pure acc

/-- One entry of the second dict comprehension (datasets): compare the
array's `dtype.type` with the declared element type. -/
def datasetMismatchStep (record : List (String × PyVal)) (acc : List (String × String))
    (kv : String × PyType) : Except PyErr (List (String × String)) := do
  let v ← pyDictGet record kv.1
  let d ← v.dtypeType
  if d ≠ kv.2 then pure (acc ++ [(kv.1, "np.ndarray of " ++ describeType kv.2)])
  else pure acc

/-- Python `dict.update`: entries of the first mapping keep their position
(with the second mapping's value when the key occurs in both), entries with
new keys are appended in order. -/
def dictUpdate (a b : List (String × String)) : List (String × String) :=
  a.map (fun kv => match b.find? (fun kv2 => kv2.1 == kv.1) with
    | some kv2 => (kv.1, kv2.2)
    | none => kv)
  ++ b.filter (fun kv2 => ! (a.any (fun kv => kv.1 == kv2.1)))

/-- `BorealisUtilities.incorrect_types_check`: scan every attribute key and
every dataset key (both scans run to completion), accumulate the mapping of
offending keys, and raise a single `BorealisDataFormatTypeError` carrying
that mapping when it is nonempty. -/
def incorrect_types_check (attributesTypeDict datasetsTypeDict : List (String × PyType))
    (record : List (String × PyVal)) (recordName : String) : Except PyErr Unit := do
  let attrBad ← attributesTypeDict.foldlM (attrMismatchStep record) []
  let dsBad ← datasetsTypeDict.foldlM (datasetMismatchStep record) []
  let incorrectTypes := dictUpdate attrBad dsBad
  if incorrectTypes.length > 0 then .error (.dataFormatType incorrectTypes recordName)
  else pure ()

/-- Result of the version-tag test done once per record (lines 1037/1215):
either the characters at positions 1 and 3 of `borealis_git_hash`, or the
255/255 sentinel. -/
inductive VersionRaw where
  | chars (major minor : Char)
  | sentinel
  deriving DecidableEq

/-- The version-tag test `hash[0] == 'v' and hash[2] == '.'` with Python
evaluation order: `hash[0]` can raise `IndexError` on an empty string, and
`hash[2]`/`hash[3]` can raise it on a short string starting with `'v'`. -/
def parseVersionChars (hash : List Char) : Except PyErr VersionRaw := do
  let c0 ← pyIdx hash 0
  if c0 = 'v' then do
    let c2 ← pyIdx hash 2
    if c2 = '.' then do
      let c1 ← pyIdx hash 1
      let c3 ← pyIdx hash 3
      pure (.chars c1 c3)
    else pure .sentinel
  else pure .sentinel

/-- A single version character converted by `np.int8('c')`: digit strings
parse, anything else raises `ValueError`. -/
def versionCharToInt8 (c : Char) : Except PyErr ℤ := do
  let z ← parseDigits [c]
  pure (toInt8 z)

/-- The `np.int8(...)` conversions applied to the stored
`borealis_major_revision` / `borealis_minor_revision` when the per-beam
record dictionary is built; note `np.int8(255) = -1`. -/
def versionToInt8 (ver : VersionRaw) : Except PyErr (ℤ × ℤ) :=
  match ver with
  | .chars cMajor cMinor => do
    let zMajor ← versionCharToInt8 cMajor
    let zMinor ← versionCharToInt8 cMinor
    pure (zMajor, zMinor)
  | .sentinel => pure (toInt8 255, toInt8 255)

/-- Reference description of the version handling, written from the amended
claim: the emitted pair is the two digits only when the tag has a
single-digit major at index 1 followed by `'.'` at index 2 and a digit minor
at index 3; it is the sentinel (255 truncated to the int8 `-1`) for any other
string that is nonempty and does not start with `'v'`, or that starts with
`'v'` and has a third character different from `'.'`; any other shape
(too-short strings starting with `'v'`, non-digit major/minor) raises. -/
def versionSpec (hash : List Char) : Except PyErr (ℤ × ℤ) :=
  match hash with
  | [] => .error .indexError
  | c0 :: rest =>
    if c0 = 'v' then
      match rest with
      | c1 :: c2 :: rest2 =>
        if c2 = '.' then
          match rest2 with
          | c3 :: _ =>
            if c1.isDigit then
              if c3.isDigit then .ok (((c1.toNat : ℤ) - 48), ((c3.toNat : ℤ) - 48))
              else .error .valueError
            else .error .valueError
          | [] => .error .indexError
        else .ok (-1, -1)
      | _ => .error .indexError
    else .ok (-1, -1)

instance : Inhabited Fl := ⟨⟨0, 1⟩⟩

/-- The fields of a Borealis rawacf record used by
`BorealisConvert._convert_rawacf_to_rawacf` and
`BorealisConvert._is_convertible_to_rawacf`.  The optional fields model the
`if 'intf_acfs' in v.keys()` / `if 'xcfs' in v.keys()` presence tests.
String-only fields that feed the skipped free-text outputs
(`experiment_name`, comments) are omitted. -/
structure RawacfRec where
  main_acfs : List Cx
  intf_acfs : Option (List Cx)
  xcfs : Option (List Cx)
  correlation_dimensions : ℕ × ℕ × ℕ
  data_normalization_factor : Fl
  borealis_git_hash : List Char
  sqn_timestamps : List Fl
  experiment_id : ℤ
  station : String
  num_sequences : ℕ
  first_range_rtt : Fl
  rx_sample_rate : Fl
  noise_at_freq : List Fl
  beam_nums : List ℤ
  beam_azms : List Fl
  scan_start_marker : Bool
  int_time : Fl
  tx_pulse_len : Fl
  tau_spacing : Fl
  pulses : List ℤ
  lags : List (ℤ × ℤ)
  first_range : Fl
  range_sep : Fl
  freq : ℤ
  blanked_samples : List ℤ
  deriving DecidableEq

/-- The fields of a Borealis bfiq record used by
`BorealisConvert._convert_bfiq_to_iqdat` and
`BorealisConvert._is_convertible_to_iqdat`.  `data_dimensions` is
`(num_antenna_arrays, num_sequences, num_beams, num_samps)`. -/
structure BfiqRec where
  data : List Cx
  data_dimensions : ℕ × ℕ × ℕ × ℕ
  data_normalization_factor : Fl
  borealis_git_hash : List Char
  sqn_timestamps : List Fl
  experiment_id : ℤ
  station : String
  num_sequences : ℕ
  first_range_rtt : Fl
  rx_sample_rate : Fl
  noise_at_freq : List Fl
  beam_nums : List ℤ
  beam_azms : List Fl
  scan_start_marker : Bool
  int_time : Fl
  tx_pulse_len : Fl
  tau_spacing : Fl
  pulses : List ℤ
  lags : List (ℤ × ℤ)
  num_ranges : ℕ
  first_range : Fl
  range_sep : Fl
  antenna_arrays_order : List String
  num_samps : ℕ
  freq : ℤ
  pulse_phase_offset : List Fl
  blanked_samples : List ℤ
  deriving DecidableEq

/-- One emitted DARN rawacf DMap record (the dictionary built per beam at
lines 1260-1336).  Free-text fields (`origin.time`, `origin.command`,
`combf`) and the redundant decomposition of the first sequence timestamp into
calendar fields are represented by the raw timestamp `originTimeSec`.
`pwr0Sq` holds the squared magnitudes of the corrected lag-zero values; the
source stores their square roots (`lag_zero_power`), so two emitted `pwr0`
entries are equal iff the corresponding `pwr0Sq` entries are. -/
structure DmapRawacfRec where
  radarRevisionMajor : ℤ
  radarRevisionMinor : ℤ
  originCode : ℤ
  originTimeSec : Fl
  cp : ℤ
  stid : ℤ
  txpow : ℤ
  nave : ℤ
  atten : ℤ
  lagfr : ℤ
  smsep : ℤ
  ercod : ℤ
  noiseSearch : Fl
  noiseMean : Fl
  channel : ℤ
  bmnum : ℤ
  bmazm : Fl
  scan : ℤ
  offsetField : ℤ
  rxrise : ℤ
  inttSc : ℤ
  inttUs : ℤ
  txpl : ℤ
  mpinc : ℤ
  mppul : ℤ
  mplgs : ℤ
  nrang : ℤ
  frang : ℤ
  rsep : ℤ
  xcf : ℤ
  tfreq : ℤ
  mxpwr : ℤ
  lvmax : ℤ
  thr : Fl
  ptab : List ℤ
  ltab : List ℤ
  pwr0Sq : List Fl
  slist : List ℤ
  acfd : List Fl
  xcfd : List Fl
  deriving DecidableEq, Inhabited

/-- One emitted DARN iqdat DMap record (the dictionary built per beam at
lines 1072-1169), with the same conventions as `DmapRawacfRec`. -/
structure DmapIqdatRec where
  radarRevisionMajor : ℤ
  radarRevisionMinor : ℤ
  originCode : ℤ
  originTimeSec : Fl
  cp : ℤ
  stid : ℤ
  txpow : ℤ
  nave : ℤ
  atten : ℤ
  lagfr : ℤ
  smsep : ℤ
  ercod : ℤ
  noiseSearch : Fl
  noiseMean : Fl
  channel : ℤ
  bmnum : ℤ
  bmazm : Fl
  scan : ℤ
  offsetField : ℤ
  rxrise : ℤ
  inttSc : ℤ
  inttUs : ℤ
  txpl : ℤ
  mpinc : ℤ
  mppul : ℤ
  mplgs : ℤ
  nrang : ℤ
  frang : ℤ
  rsep : ℤ
  xcf : ℤ
  tfreq : ℤ
  mxpwr : ℤ
  lvmax : ℤ
  iqdataRevisionMajor : ℤ
  iqdataRevisionMinor : ℤ
  seqnum : ℤ
  chnnum : ℤ
  smpnum : ℤ
  skpnum : ℤ
  ptab : List ℤ
  ltab : List ℤ
  tsc : List ℤ
  tus : List ℤ
  tatten : List ℤ
  tnoise : List Fl
  toff : List ℤ
  tsze : List ℤ
  dataArr : List ℤ
  deriving DecidableEq, Inhabited

/-- numpy `reshape` size requirement: reshaping raises `ValueError` unless
the flat length equals the product of the requested dimensions. -/
def reshapeCheck (flat : List Cx) (size : ℕ) : Except PyErr Unit :=
  if flat.length = size then .ok () else .error .valueError

/-- numpy basic-indexing bounds requirement: integer indices must be in
bounds on their axis, else `IndexError`. -/
def boundsCheck (ok : Bool) : Except PyErr Unit :=
  if ok then .ok () else .error .indexError

/-- Element `(b, i, j)` of a row-major `(B, R, L)`-reshaped flat array. -/
def get3 (flat : List Cx) (R L b i j : ℕ) : Cx :=
  flat.getD (b * (R * L) + i * L + j) cxZero

/-- Element `(a, s, b, n)` of a row-major `(A, S, Bm, N)`-reshaped flat
array. -/
def get4 (flat : List Cx) (S Bm N a s b n : ℕ) : Cx :=
  flat.getD (a * (S * (Bm * N)) + s * (Bm * N) + b * N + n) cxZero

/-- Divide a complex value by a scalar. -/
def cxDiv (z : Cx) (c : Fl) : Cx := (z.1 / c, z.2 / c)

/-- The power-domain rescaling factor of the rawacf conversion:
`(np.iinfo(np.int16).max ** 2) / (data_normalization_factor ** 2)`
(lines 1197-1211). -/
def corrScale (v : RawacfRec) : Fl :=
  Fl.ofInt (32767 * 32767) / (v.data_normalization_factor * v.data_normalization_factor)

/-- Element `(b, i, j)` of a rescaled, `(num_beams, num_ranges, num_lags)`
reshaped correlation array of record `v` (the arrays stored in
`shaped_data`). -/
def shapedAt (v : RawacfRec) (flat : List Cx) (b i j : ℕ) : Cx :=
  cxScale (corrScale v)
    (get3 flat v.correlation_dimensions.2.1 v.correlation_dimensions.2.2 b i j)

/-- Replace the last `m` entries of `xs` with the last `m` entries of `ys`:
numpy `xs[-m:] = ys[-m:]` for equal-length one-dimensional views (when the
views are shorter than `m`, everything is replaced, as in numpy). -/
def assignLastN {α : Type} (m : ℕ) (xs ys : List α) : List α :=
  xs.take (xs.length - m) ++ ys.drop (ys.length - m)

/-- The corrected lag-zero slice of beam `bi` (lines 1227-1228): start from
`main_acfs[bi, :, 0]` and overwrite the last 10 ranges with the alternate
lag-zero column `main_acfs[bi, -10:, -1]`. -/
def lagZeroCorrected (v : RawacfRec) (bi : ℕ) : List Cx :=
  let R := v.correlation_dimensions.2.1
  let L := v.correlation_dimensions.2.2
  assignLastN 10
    ((List.range R).map (fun i => shapedAt v v.main_acfs bi i 0))
    ((List.range R).map (fun i => shapedAt v v.main_acfs bi i (L - 1)))

/-- One corrected, truncated, flattened correlation array of beam `bi`
(lines 1232-1258): drop the last lag column, substitute the alternate
lag-zero into lag 0 for the last 10 ranges, and interleave real and
imaginary parts in row-major `(range, lag)` order.  The in-place view
assignments of the source change only values this closed form reproduces
(the lag-zero column of the same fresh rescaled array, which the earlier
`lag_zero` substitution has already set to the same alternate value). -/
def corrCorrected (v : RawacfRec) (flat : List Cx) (bi : ℕ) : List Fl :=
  let R := v.correlation_dimensions.2.1
  let L := v.correlation_dimensions.2.2
  (List.range R).flatMap (fun i =>
    (List.range (L - 1)).flatMap (fun j =>
      let z := if j = 0 ∧ R - 10 ≤ i then shapedAt v flat bi i (L - 1)
               else shapedAt v flat bi i j
      [z.1, z.2]))

/-- The reshape of an optionally present correlation array (the
`if 'intf_acfs' in v.keys()` / `if 'xcfs' in v.keys()` guarded reshapes):
absent arrays check nothing. -/
def optReshapeCheck (o : Option (List Cx)) (size : ℕ) : Except PyErr Unit :=
  match o with
  | some flat => reshapeCheck flat size
  | none => pure ()

/-- The view-indexing bounds requirement of the correlation loop for an
optionally present array: absent arrays are not iterated. -/
def optBoundsCheck (o : Option (List Cx)) (ok : Bool) : Except PyErr Unit :=
  match o with
  | some _ => boundsCheck ok
  | none => pure ()

/-- The unconditional `correlation_dict['xcfs']` read at the `'xcfd'` entry
(line 1335): a `KeyError` when the record has no `xcfs` field, since the
correlation dictionary only holds the keys present in the record. -/
def xcfsLookup (v : RawacfRec) (bi : ℕ) : Except PyErr (List Fl) :=
  match v.xcfs with
  | some flat => pure (corrCorrected v flat bi)
  | none => .error (.keyError "xcfs")

/-- The values every fallible subexpression of the per-beam rawacf record
dictionary produces, bound in Python evaluation order. -/
structure RawacfBeamIn where
  version : ℤ × ℤ
  ts0 : Fl
  stid : ℤ
  noise0 : Fl
  channelRaw : ℤ
  bmazmVal : Fl
  xcfdList : List Fl
  deriving DecidableEq

/-- The fallible part of building one per-beam rawacf record
(lines 1225-1336), in source order: the `lag_zero` view indexing, the
per-correlation-key view indexing (`this_correlation[-10:, 0]` needs at
least two lags), then the dictionary entries `radar.revision.*` (int8 casts),
`origin.time` (first sequence timestamp), `stid` (station table lookup),
`noise.search`, `channel` (slice id parse), `bmazm`, and finally `xcfd`,
which reads `correlation_dict['xcfs']` unconditionally. -/
def rawacfBeamInputs (v : RawacfRec) (ver : VersionRaw) (sliceId : List Char)
    (bi : ℕ) : Except PyErr RawacfBeamIn := do
  let B := v.correlation_dimensions.1
  let L := v.correlation_dimensions.2.2
  let _ ← boundsCheck (decide (bi < B) && decide (1 ≤ L))
  let _ ← boundsCheck (decide (bi < B) && decide (2 ≤ L))
  let _ ← optBoundsCheck v.intf_acfs (decide (bi < B) && decide (2 ≤ L))
  let _ ← optBoundsCheck v.xcfs (decide (bi < B) && decide (2 ≤ L))
  let version ← versionToInt8 ver
  let ts0 ← pyIdx v.sqn_timestamps 0
  let stid ← pyDictGet code_to_stid v.station
  let noise0 ← pyIdx v.noise_at_freq 0
  let channelRaw ← parseDigits sliceId
  let bmazmVal ← pyIdx v.beam_azms bi
  let xcfdList ← xcfsLookup v bi
  pure ⟨version, ts0, stid, noise0, channelRaw, bmazmVal, xcfdList⟩

/-- The pure assembly of one per-beam rawacf record from the record fields
and the bound fallible values. -/
def mkRawacfBeamRec (v : RawacfRec) (bi : ℕ) (beam : ℤ)
    (inp : RawacfBeamIn) : DmapRawacfRec :=
  let R := v.correlation_dimensions.2.1
  { radarRevisionMajor := inp.version.1
    radarRevisionMinor := inp.version.2
    originCode := 100
    originTimeSec := inp.ts0
    cp := toInt16 v.experiment_id
    stid := toInt16 inp.stid
    txpow := -1
    nave := toInt16 v.num_sequences
    atten := 0
    lagfr := toInt16 v.first_range_rtt.truncZ
    smsep := toInt16 (Fl.ofInt 1000000 / v.rx_sample_rate).truncZ
    ercod := 0
    noiseSearch := inp.noise0
    noiseMean := 0
    channel := toInt16 inp.channelRaw
    bmnum := toInt16 beam
    bmazm := inp.bmazmVal
    scan := toInt16 (if v.scan_start_marker then 1 else 0)
    offsetField := 0
    rxrise := 0
    inttSc := toInt16 v.int_time.floorZ
    inttUs := toInt32 (v.int_time.fmodOne * Fl.ofInt 1000000).truncZ
    txpl := toInt16 v.tx_pulse_len.truncZ
    mpinc := toInt16 v.tau_spacing.truncZ
    mppul := toInt16 v.pulses.length
    mplgs := toInt16 ((v.lags.length : ℤ) - 1)
    nrang := toInt16 R
    frang := toInt16 (pyRound v.first_range)
    rsep := toInt16 (pyRound v.range_sep)
    xcf := toInt16 (if v.xcfs.isSome then 1 else 0)
    tfreq := toInt16 v.freq
    mxpwr := -1
    lvmax := 20000
    thr := 0
    ptab := v.pulses.map toInt16
    ltab := v.lags.flatMap (fun p => [toInt16 p.1, toInt16 p.2])
    pwr0Sq := (lagZeroCorrected v bi).map magSq
    slist := (List.range R).map (fun i => toInt16 (i : ℤ))
    acfd := corrCorrected v v.main_acfs bi
    xcfd := inp.xcfdList }

/-- One iteration of the rawacf per-beam loop. -/
def buildRawacfBeam (v : RawacfRec) (ver : VersionRaw) (sliceId : List Char)
    (bi : ℕ) (beam : ℤ) : Except PyErr DmapRawacfRec :=
  (rawacfBeamInputs v ver sliceId bi).map (mkRawacfBeamRec v bi beam)

/-- `BorealisConvert._convert_rawacf_to_rawacf`, one source record
(lines 1192-1337): reshape the present correlation arrays (sizes must
match), run the version-tag test, extract the slice id from the file name
(`basename.split('.')[-3]`), then emit one record per entry of `beam_nums`
in order. -/
def convertRawacfRecord (filenameChars : List Char) (v : RawacfRec) :
    Except PyErr (List DmapRawacfRec) := do
  let B := v.correlation_dimensions.1
  let R := v.correlation_dimensions.2.1
  let L := v.correlation_dimensions.2.2
  let _ ← reshapeCheck v.main_acfs (B * (R * L))
  let _ ← optReshapeCheck v.intf_acfs (B * (R * L))
  let _ ← optReshapeCheck v.xcfs (B * (R * L))
  let ver ← parseVersionChars v.borealis_git_hash
  let sliceId ← pyIdxFromEnd (splitOnChars ['.'] (pyBasenameChars filenameChars)) 3
  mapIdxExcept (fun bi beam => buildRawacfBeam v ver sliceId bi beam) 0 v.beam_nums

/-- `BorealisConvert._convert_rawacf_to_rawacf` over the whole ordered
record collection: records are processed in order and their per-beam
outputs are appended to one flat list. -/
def convertRawacfToRawacf (filenameChars : List Char)
    (records : List (String × RawacfRec)) : Except PyErr (List DmapRawacfRec) := do
  let nested ← mapExcept (fun kv => convertRawacfRecord filenameChars kv.2) records
  pure nested.flatten

/-- `blanked_samples == pulses * int(tau_spacing / tx_pulse_len)` as tested
with `np.array_equal` by both convertibility checks. -/
def blankedOk {Rec : Type} (blanked pulses : Rec → List ℤ)
    (tau tx : Rec → Fl) (v : Rec) : Bool :=
  blanked v = (pulses v).map (fun p => p * (tau v / tx v).truncZ)

/-- The `blanked_samples` invariant for a rawacf record. -/
def rawacfBlankedOk (v : RawacfRec) : Bool :=
  blankedOk RawacfRec.blanked_samples RawacfRec.pulses
    RawacfRec.tau_spacing RawacfRec.tx_pulse_len v

/-- The `blanked_samples` invariant for a bfiq record. -/
def bfiqBlankedOk (v : BfiqRec) : Bool :=
  blankedOk BfiqRec.blanked_samples BfiqRec.pulses
    BfiqRec.tau_spacing BfiqRec.tx_pulse_len v

/-- `all([x == 0 for x in v['pulse_phase_offset']])`. -/
def bfiqPhaseOk (v : BfiqRec) : Bool :=
  v.pulse_phase_offset.all Fl.isZeroB

/-- `BorealisConvert._is_convertible_to_rawacf` (lines 978-1008).  When the
origin filetype is not `rawacf` the source evaluates `self.dmap_filetype`,
an attribute `BorealisConvert` never defines, so that branch raises
`AttributeError` rather than the intended conversion-types error.  Otherwise
every record is checked for the `blanked_samples` invariant in order. -/
def isConvertibleToRawacf (origin : String)
    (records : List (String × RawacfRec)) : Except PyErr Bool :=
  if origin ≠ "rawacf" then .error (.attributeError "dmap_filetype")
  else do
    let _ ← records.foldlM (fun _ kv =>
      if rawacfBlankedOk kv.2 then Except.ok ()
      else .error (.convert2RawacfBlanked kv.1)) ()
    pure true

/-- `BorealisConvert._is_convertible_to_iqdat` (lines 942-976), with the
same `AttributeError` caveat; each record is checked for the
`blanked_samples` invariant and then for an all-zero `pulse_phase_offset`,
in order. -/
def isConvertibleToIqdat (origin : String)
    (records : List (String × BfiqRec)) : Except PyErr Bool :=
  if origin ≠ "bfiq" then .error (.attributeError "dmap_filetype")
  else do
    let _ ← records.foldlM (fun _ kv =>
      if bfiqBlankedOk kv.2 then
        if bfiqPhaseOk kv.2 then Except.ok ()
        else .error (.convert2IqdatPhase kv.1)
      else .error (.convert2IqdatBlanked kv.1)) ()
    pure true

/-- The origin filetype read from the file name in
`BorealisConvert.__init__`: `os.path.basename(filename).split('.')[-2]`. -/
def extractOriginFiletype (filenameChars : List Char) : Except PyErr (List Char) :=
  pyIdxFromEnd (splitOnChars ['.'] (pyBasenameChars filenameChars)) 2

/-- `BorealisConvert._convert_records_to_dmap('rawacf')`: run the
convertibility check first; only when it passes is any output record
produced. -/
def convertRecordsToDmapRawacf (filenameChars : List Char)
    (records : List (String × RawacfRec)) : Except PyErr (List DmapRawacfRec) := do
  let origin ← extractOriginFiletype filenameChars
  let _ ← isConvertibleToRawacf (String.mk origin) records
  convertRawacfToRawacf filenameChars records

/-- Python `math.fmod(a, m)` (the result keeps the sign of `a`). -/
def Fl.fmod (a m : Fl) : Fl := a - m * Fl.ofInt (a / m).truncZ

/-- Element `(a, s, b, n)` of the rescaled, reshaped bfiq sample array
(line 1031): `data.reshape(data_dimensions).astype(complex128)
/ data_normalization_factor * np.iinfo(np.int16).max`. -/
def bfiqDataAt (v : BfiqRec) (a s b n : ℕ) : Cx :=
  cxScale (Fl.ofInt 32767)
    (cxDiv (get4 v.data v.data_dimensions.2.1 v.data_dimensions.2.2.1
        v.data_dimensions.2.2.2 a s b n)
      v.data_normalization_factor)

/-- The faults the per-sequence loop of the bfiq beam extraction can raise
(lines 1057-1062): with at least one antenna array, indexing
`this_data[x, i, :]` needs `i < num_sequences-axis size`; with zero antenna
arrays, `np.column_stack([])` raises `ValueError`. -/
def bfiqSeqChecks (A S numSeq : ℕ) : Except PyErr Unit :=
  (List.range numSeq).foldlM (fun _ i =>
    if 0 < A then
      if i < S then Except.ok () else .error .indexError
    else .error .valueError) ()

/-- The flattened, interleaved int16 sample stream of beam `bi`
(lines 1053-1069): sequences in `range(num_sequences)` order, samples within
a sequence, antenna arrays within a sample (`np.column_stack` + `ravel`),
then each complex value split into `(real, imag)` int16 pairs. -/
def bfiqBeamData (v : BfiqRec) (bi : ℕ) : List ℤ :=
  let A := v.data_dimensions.1
  let N := v.data_dimensions.2.2.2
  (List.range v.num_sequences).flatMap (fun s =>
    (List.range N).flatMap (fun n =>
      (List.range A).flatMap (fun a =>
        let z := bfiqDataAt v a s bi n
        [toInt16 z.1.truncZ, toInt16 z.2.truncZ])))

/-- The values every fallible subexpression of the per-beam iqdat record
dictionary produces, bound in Python evaluation order. -/
structure BfiqBeamIn where
  version : ℤ × ℤ
  ts0 : Fl
  stid : ℤ
  noise0 : Fl
  channelRaw : ℤ
  bmazmVal : Fl
  deriving DecidableEq

/-- The fallible part of building one per-beam iqdat record
(lines 1050-1169), in source order: the `this_data` beam slice, the
per-sequence extraction, then the dictionary entries `radar.revision.*`
(int8 casts), `origin.time`, `stid`, `noise.search`, `channel`, `bmazm`. -/
def bfiqBeamInputs (v : BfiqRec) (ver : VersionRaw) (sliceId : List Char)
    (bi : ℕ) : Except PyErr BfiqBeamIn := do
  let A := v.data_dimensions.1
  let S := v.data_dimensions.2.1
  let Bm := v.data_dimensions.2.2.1
  let _ ← boundsCheck (decide (bi < Bm))
  let _ ← bfiqSeqChecks A S v.num_sequences
  let version ← versionToInt8 ver
  let ts0 ← pyIdx v.sqn_timestamps 0
  let stid ← pyDictGet code_to_stid v.station
  let noise0 ← pyIdx v.noise_at_freq 0
  let channelRaw ← parseDigits sliceId
  let bmazmVal ← pyIdx v.beam_azms bi
  pure ⟨version, ts0, stid, noise0, channelRaw, bmazmVal⟩

/-- The pure assembly of one per-beam iqdat record from the record fields
and the bound fallible values. -/
def mkIqdatBeamRec (v : BfiqRec) (bi : ℕ) (beam : ℤ)
    (inp : BfiqBeamIn) : DmapIqdatRec :=
  let offset : ℤ := 2 * (v.antenna_arrays_order.length : ℤ) * (v.num_samps : ℤ)
  { radarRevisionMajor := inp.version.1
    radarRevisionMinor := inp.version.2
    originCode := 100
    originTimeSec := inp.ts0
    cp := toInt16 v.experiment_id
    stid := toInt16 inp.stid
    txpow := -1
    nave := toInt16 v.num_sequences
    atten := 0
    lagfr := toInt16 v.first_range_rtt.truncZ
    smsep := toInt16 (Fl.ofInt 1000000 / v.rx_sample_rate).truncZ
    ercod := 0
    noiseSearch := inp.noise0
    noiseMean := 0
    channel := toInt16 inp.channelRaw
    bmnum := toInt16 beam
    bmazm := inp.bmazmVal
    scan := toInt16 (if v.scan_start_marker then 1 else 0)
    offsetField := 0
    rxrise := 0
    inttSc := toInt16 v.int_time.floorZ
    inttUs := toInt32 (v.int_time.fmodOne * Fl.ofInt 1000000).truncZ
    txpl := toInt16 v.tx_pulse_len.truncZ
    mpinc := toInt16 v.tau_spacing.truncZ
    mppul := toInt16 v.pulses.length
    mplgs := toInt16 ((v.lags.length : ℤ) - 1)
    nrang := toInt16 v.num_ranges
    frang := toInt16 (pyRound v.first_range)
    rsep := toInt16 (pyRound v.range_sep)
    xcf := toInt16 (if v.antenna_arrays_order.contains "intf" then 1 else 0)
    tfreq := toInt16 v.freq
    mxpwr := -1
    lvmax := 20000
    iqdataRevisionMajor := 1
    iqdataRevisionMinor := 0
    seqnum := toInt32 v.num_sequences
    chnnum := toInt32 v.antenna_arrays_order.length
    smpnum := toInt32 v.num_samps
    skpnum := toInt32 (v.first_range / v.range_sep).truncZ
    ptab := v.pulses.map toInt16
    ltab := v.lags.flatMap (fun p => [toInt16 p.1, toInt16 p.2])
    tsc := v.sqn_timestamps.map (fun x => toInt32 (x / Fl.ofInt 1000).floorZ)
    tus := v.sqn_timestamps.map
      (fun x => toInt32 ((x.fmod (Fl.ofInt 1000)) * Fl.ofInt 1000).truncZ)
    tatten := List.replicate v.num_sequences 0
    tnoise := v.noise_at_freq
    toff := (List.range v.num_sequences).map (fun i => toInt32 ((i : ℤ) * offset))
    tsze := List.replicate v.num_sequences (toInt32 offset)
    dataArr := bfiqBeamData v bi }

/-- One iteration of the iqdat per-beam loop. -/
def buildBfiqBeam (v : BfiqRec) (ver : VersionRaw) (sliceId : List Char)
    (bi : ℕ) (beam : ℤ) : Except PyErr DmapIqdatRec :=
  (bfiqBeamInputs v ver sliceId bi).map (mkIqdatBeamRec v bi beam)

/-- `BorealisConvert._convert_bfiq_to_iqdat`, one source record
(lines 1026-1170): reshape the sample array, run the version-tag test,
extract the slice id from the file name, then emit one record per entry of
`beam_nums` in order. -/
def convertBfiqRecord (filenameChars : List Char) (v : BfiqRec) :
    Except PyErr (List DmapIqdatRec) := do
  let A := v.data_dimensions.1
  let S := v.data_dimensions.2.1
  let Bm := v.data_dimensions.2.2.1
  let N := v.data_dimensions.2.2.2
  let _ ← reshapeCheck v.data (A * (S * (Bm * N)))
  let ver ← parseVersionChars v.borealis_git_hash
  let sliceId ← pyIdxFromEnd (splitOnChars ['.'] (pyBasenameChars filenameChars)) 3
  mapIdxExcept (fun bi beam => buildBfiqBeam v ver sliceId bi beam) 0 v.beam_nums

/-- `BorealisConvert._convert_bfiq_to_iqdat` over the whole ordered record
collection. -/
def convertBfiqToIqdat (filenameChars : List Char)
    (records : List (String × BfiqRec)) : Except PyErr (List DmapIqdatRec) := do
  let nested ← mapExcept (fun kv => convertBfiqRecord filenameChars kv.2) records
  pure nested.flatten

/-- `BorealisConvert._convert_records_to_dmap('iqdat')`: run the
convertibility check first; only when it passes is any output record
produced. -/
def convertRecordsToDmapIqdat (filenameChars : List Char)
    (records : List (String × BfiqRec)) : Except PyErr (List DmapIqdatRec) := do
  let origin ← extractOriginFiletype filenameChars
  let _ ← isConvertibleToIqdat (String.mk origin) records
  convertBfiqToIqdat filenameChars records

/-- The default output file name computed by `bfiq2darniqdat` /
`rawacf2darnrawacf` (lines 1416-1422): dirname, a `/`, then the basename
with `'dmap'` joined between the pieces obtained by splitting on
`"hdf5"`. -/
def computeDmapFilename (filenameChars : List Char) : List Char :=
  pyDirnameChars filenameChars ++ ['/'] ++
    joinWithChars "dmap".data (splitOnChars "hdf5".data (pyBasenameChars filenameChars))

/-- `bfiq2darniqdat(filename, **kwargs)` (lines 1386-1434): compute the
default output name, let a caller-supplied `dmap_filename` keyword override
it, and compare with the input name before any file is opened, read or
written.  The module never imports or defines `ConvertFileOverWriteError`,
so taking the overwrite branch raises `NameError` at the `raise` statement.
The read-convert-write performed by `borealis_write_to_dmap` is modelled by
converting the given record collection; an error result emits nothing. -/
def bfiq2darniqdat (filenameChars : List Char)
    (kwargsDmapFilename : Option (List Char))
    (contents : List (String × BfiqRec)) :
    Except PyErr (List Char × List DmapIqdatRec) :=
  let dmapFilename := kwargsDmapFilename.getD (computeDmapFilename filenameChars)
  if dmapFilename = filenameChars then .error (.nameError "ConvertFileOverWriteError")
  else do
    let recs ← convertRecordsToDmapIqdat filenameChars contents
    pure (dmapFilename, recs)

/-- `rawacf2darnrawacf(filename, **kwargs)` (lines 1437-1485), identical to
`bfiq2darniqdat` with the rawacf conversion. -/
def rawacf2darnrawacf (filenameChars : List Char)
    (kwargsDmapFilename : Option (List Char))
    (contents : List (String × RawacfRec)) :
    Except PyErr (List Char × List DmapRawacfRec) :=
  let dmapFilename := kwargsDmapFilename.getD (computeDmapFilename filenameChars)
  if dmapFilename = filenameChars then .error (.nameError "ConvertFileOverWriteError")
  else do
    let recs ← convertRecordsToDmapRawacf filenameChars contents
    pure (dmapFilename, recs)

/-!
Heap model of the two conversion paths, for the frame property "the
converter never mutates the input records".  A store is a list of flat
buffers of complex values; numpy arrays are buffer ids.  `reshape` and basic
slicing return views (the same buffer id with different index arithmetic),
`astype` and the arithmetic operators allocate fresh buffers, and slice
assignment writes into an existing buffer.  Scalar record fields are
immutable Python values and cannot be mutated, so only the array operations
appear here; the value-level model above tracks the numbers themselves.
Real-valued derived arrays are stored with a zero imaginary part.
-/

/-- A heap of numpy buffers. -/
abbrev Store : Type := List (List Cx)

/-- Read position `i` of buffer `b`. -/
def stRead (s : Store) (b i : ℕ) : Cx := (s.getD b []).getD i cxZero

/-- Write position `i` of buffer `b`. -/
def stWrite (s : Store) (b i : ℕ) (x : Cx) : Store :=
  s.set b ((s.getD b []).set i x)

/-- Allocate a fresh buffer, returning the new store and the new id. -/
def stAlloc (s : Store) (buf : List Cx) : Store × ℕ := (s ++ [buf], s.length)

/-- numpy slice assignment `dst[dstIdx] = src[srcIdx]`: the right-hand side
is read out first, then written element-wise. -/
def stSliceAssign (s : Store) (dst : ℕ) (dstIdx : List ℕ) (src : ℕ)
    (srcIdx : List ℕ) : Store :=
  let vals := srcIdx.map (fun i => stRead s src i)
  (dstIdx.zip vals).foldl (fun t p => stWrite t dst p.1 p.2) s

/-- Filling a freshly created `np.empty` buffer `dstBuf` with the
interleaved real and imaginary parts of `srcBuf` by the two strided
assignments `int_data[0::2] = flattened.real; int_data[1::2] =
flattened.imag`. -/
def stInterleaveFill (srcBuf dstBuf count : ℕ) (s : Store) : Store :=
  (List.range count).foldl (fun t j =>
    let z := stRead t srcBuf j
    stWrite (stWrite t dstBuf (2 * j) (z.1, 0)) dstBuf (2 * j + 1) (z.2, 0)) s

/-- The chain `arr.reshape(dims).astype(complex128) * scale` (or the
equivalent `/ factor * max` chain): the reshape is a view of `src`, the cast
copies into a fresh buffer, and the scalar arithmetic allocates the result
buffer, whose id is returned. -/
def stShapeArray (s : Store) (src : ℕ) (scale : Fl) : Store × ℕ :=
  let a1 := stAlloc s (s.getD src [])
  stAlloc a1.1 ((a1.1.getD a1.2 []).map (fun z => cxScale scale z))

/-- Every buffer that existed in `s0` still holds the same contents in `s`. -/
def PreservesOld (s0 s : Store) : Prop :=
  s0.length ≤ s.length ∧ ∀ i, i < s0.length → s.getD i [] = s0.getD i []

/-- Range indices selected by `[-10:]` on an axis of size `R`. -/
def lastTen (R : ℕ) : List ℕ := (List.range R).filter (fun i => R - 10 ≤ i)

/-- Flat positions of `arr[bi, i, 0]` for the last ten ranges, in a
`(B, R, L)` row-major layout. -/
def lagZeroDstIdx (R L bi : ℕ) : List ℕ :=
  (lastTen R).map (fun i => bi * (R * L) + i * L)

/-- Flat positions of `arr[bi, i, L-1]` for the last ten ranges. -/
def lagZeroSrcIdx (R L bi : ℕ) : List ℕ :=
  (lastTen R).map (fun i => bi * (R * L) + i * L + (L - 1))

/-- Flat positions of the `(range, lag)` entries kept by
`arr[bi, :, :-1]`. -/
def corrFlatIdx (R L bi : ℕ) : List ℕ :=
  (List.range R).flatMap (fun i =>
    (List.range (L - 1)).map (fun j => bi * (R * L) + i * L + j))

/-- The heap effects of one key of the correlation loop (lines 1232-1258):
the in-place alternate-lag substitution `this_correlation[-10:, 0] =
shaped[bi, -10:, -1]` through a view of the rescaled buffer, the flattening
copy, and the interleaved `int_data` buffer (`np.empty` plus two strided
assignments). -/
def stRawacfKeyBody (R L bi : ℕ) (buf : ℕ) (s : Store) : Store :=
  let s1 := stSliceAssign s buf (lagZeroDstIdx R L bi) buf (lagZeroSrcIdx R L bi)
  let a2 := stAlloc s1 ((corrFlatIdx R L bi).map (fun i => stRead s1 buf i))
  let a3 := stAlloc a2.1 (List.replicate (2 * (corrFlatIdx R L bi).length) cxZero)
  stInterleaveFill a2.2 a3.2 (corrFlatIdx R L bi).length a3.1

/-- The array buffers and loop counts of one rawacf record, for the heap
model. -/
structure StRawacfRec where
  mainBuf : ℕ
  intfBuf : Option ℕ
  xcfsBuf : Option ℕ
  pulsesBuf : ℕ
  lagsBuf : ℕ
  dims : ℕ × ℕ × ℕ
  beamCount : ℕ
  scale : Fl

/-- The heap effects of one iteration of the rawacf per-beam loop
(lines 1225-1337): the `lag_zero` view substitution on the rescaled main
buffer, the fresh `lag_zero_power` array, the correlation loop over the
present rescaled buffers (main, then interferometer, then cross), and the
fresh `ptab`/`ltab`/`pwr0` output arrays copied from the input tables and
the power array. -/
def stRawacfBeamBody (v : StRawacfRec) (mainBuf : ℕ) (otherBufs : List ℕ)
    (bi : ℕ) (s : Store) : Store :=
  let R := v.dims.2.1
  let L := v.dims.2.2
  let s1 := stSliceAssign s mainBuf (lagZeroDstIdx R L bi) mainBuf (lagZeroSrcIdx R L bi)
  let a2 := stAlloc s1 ((List.range R).map (fun i =>
    (magSq (stRead s1 mainBuf (bi * (R * L) + i * L)), 0)))
  let s3 := (mainBuf :: otherBufs).foldl (fun t b => stRawacfKeyBody R L bi b t) a2.1
  let a4 := stAlloc s3 (s3.getD v.pulsesBuf [])
  let a5 := stAlloc a4.1 (a4.1.getD v.lagsBuf [])
  (stAlloc a5.1 (a5.1.getD a2.2 [])).1

/-- The heap effects of one rawacf record (lines 1192-1337): rescaled
copies of the present correlation arrays, then the per-beam loop. -/
def stRawacfRecBody (v : StRawacfRec) (s : Store) : Store :=
  let a1 := stShapeArray s v.mainBuf v.scale
  let p2 := match v.intfBuf with
    | some b => (let a := stShapeArray a1.1 b v.scale; (a.1, [a.2]))
    | none => (a1.1, ([] : List ℕ))
  let p3 := match v.xcfsBuf with
    | some b => (let a := stShapeArray p2.1 b v.scale; (a.1, p2.2 ++ [a.2]))
    | none => (p2.1, p2.2)
  (List.range v.beamCount).foldl
    (fun t bi => stRawacfBeamBody v a1.2 p3.2 bi t) p3.1

/-- The heap effects of `_convert_rawacf_to_rawacf` over a record
collection. -/
def stConvertRawacf (records : List StRawacfRec) (s : Store) : Store :=
  records.foldl (fun t v => stRawacfRecBody v t) s

/-- The array buffers and loop counts of one bfiq record, for the heap
model.  `dims` is `(num_antenna_arrays, num_sequences-axis, num_beams,
num_samps)`. -/
structure StBfiqRec where
  dataBuf : ℕ
  pulsesBuf : ℕ
  lagsBuf : ℕ
  dims : ℕ × ℕ × ℕ × ℕ
  numSeq : ℕ
  beamCount : ℕ
  normFactor : Fl

/-- Flat position of `data[a, s, b, n]` in an `(A, S, Bm, N)` row-major
layout. -/
def bfiqIdx (S Bm N a s b n : ℕ) : ℕ :=
  a * (S * (Bm * N)) + s * (Bm * N) + b * N + n

/-- Flat positions of `this_data[x, i, :]` interleaved across antenna
arrays for one sequence (the `np.column_stack` + `ravel` order). -/
def stBfiqSeqIdx (v : StBfiqRec) (i bi : ℕ) : List ℕ :=
  (List.range v.dims.2.2.2).flatMap (fun n =>
    (List.range v.dims.1).map (fun a =>
      bfiqIdx v.dims.2.1 v.dims.2.2.1 v.dims.2.2.2 a i bi n))

/-- The per-sequence loop of the iqdat beam extraction (lines 1057-1062):
each iteration allocates the `np.column_stack` result and its `ravel`
copy. -/
def stBfiqSeqLoop (v : StBfiqRec) (dataBuf bi : ℕ) (s : Store) : Store :=
  (List.range v.numSeq).foldl (fun t i =>
    let a := stAlloc t ((stBfiqSeqIdx v i bi).map (fun ix => stRead t dataBuf ix))
    (stAlloc a.1 (a.1.getD a.2 [])).1) s

/-- The heap effects of one iteration of the iqdat per-beam loop
(lines 1050-1169): `this_data` is a view; the per-sequence loop allocates;
`np.array(reshaped_data)` and `.flatten()` allocate copies; `int_data` is a
fresh `np.empty` buffer filled by two strided assignments; `ptab`/`ltab`
allocate `astype` copies of the input tables. -/
def stBfiqBeamBody (v : StBfiqRec) (dataBuf : ℕ) (bi : ℕ) (s : Store) : Store :=
  let s1 := stBfiqSeqLoop v dataBuf bi s
  let flatIdx := (List.range v.numSeq).flatMap (fun i => stBfiqSeqIdx v i bi)
  let a2 := stAlloc s1 (flatIdx.map (fun ix => stRead s1 dataBuf ix))
  let a3 := stAlloc a2.1 (a2.1.getD a2.2 [])
  let a4 := stAlloc a3.1 (List.replicate (2 * flatIdx.length) cxZero)
  let s5 := stInterleaveFill a3.2 a4.2 flatIdx.length a4.1
  let a6 := stAlloc s5 (s5.getD v.pulsesBuf [])
  (stAlloc a6.1 (a6.1.getD v.lagsBuf [])).1

/-- The heap effects of one bfiq record (lines 1026-1170): the
`astype` copy, the division and multiplication allocations, then the
per-beam loop. -/
def stBfiqRecBody (v : StBfiqRec) (s : Store) : Store :=
  let a1 := stAlloc s (s.getD v.dataBuf [])
  let a2 := stAlloc a1.1 ((a1.1.getD a1.2 []).map (fun z => cxDiv z v.normFactor))
  let a3 := stAlloc a2.1 ((a2.1.getD a2.2 []).map (fun z => cxScale (Fl.ofInt 32767) z))
  (List.range v.beamCount).foldl (fun t bi => stBfiqBeamBody v a3.2 bi t) a3.1

/-- The heap effects of `_convert_bfiq_to_iqdat` over a record collection. -/
def stConvertBfiq (records : List StBfiqRec) (s : Store) : Store :=
  records.foldl (fun t v => stBfiqRecBody v t) s

/-- Decidable equality of `Except` results, for evaluating the model on
concrete inputs. -/
instance instDecEqExceptPy {ε α : Type} [DecidableEq ε] [DecidableEq α] :
    DecidableEq (Except ε α) := fun a b =>
  match a, b with
  | .ok x, .ok y =>
    if h : x = y then isTrue (by rw [h]) else isFalse (fun hc => h (Except.ok.inj hc))
  | .error x, .error y =>
    if h : x = y then isTrue (by rw [h]) else isFalse (fun hc => h (Except.error.inj hc))
  | .ok _, .error _ => isFalse (fun hc => Except.noConfusion hc)
  | .error _, .ok _ => isFalse (fun hc => Except.noConfusion hc)

/-- Reference predicate (from the source comprehension at lines 281-284):
an attribute key is reported iff its record value's runtime type differs
from the declared one. -/
def attrIsBad (record : List (String × PyVal)) (pt : String × PyType) : Bool :=
  match (record.find? (fun p => p.1 == pt.1)).map Prod.snd with
  | some v => v.typeOf != pt.2
  | none => false

/-- Reference predicate (from the source comprehension at lines 286-290):
a dataset key is reported iff its record value is an array whose dtype
differs from the declared element type. -/
def dsIsBad (record : List (String × PyVal)) (pt : String × PyType) : Bool :=
  match (record.find? (fun p => p.1 == pt.1)).map Prod.snd with
  | some (.arr d) => d != pt.2
  | _ => false

/-- The mapping the attribute scan accumulates when every key is present. -/
def attrBadList (attrs : List (String × PyType)) (record : List (String × PyVal)) :
    List (String × String) :=
  (attrs.filter (attrIsBad record)).map (fun pt => (pt.1, describeType pt.2))

/-- The mapping the dataset scan accumulates when every key is present and
holds an array. -/
def dsBadList (datasets : List (String × PyType)) (record : List (String × PyVal)) :
    List (String × String) :=
  (datasets.filter (dsIsBad record)).map (fun pt => (pt.1, "np.ndarray of " ++ describeType pt.2))

/-- The set of keys whose value violates the declared type. -/
def typeMismatchKeys (attrs datasets : List (String × PyType))
    (record : List (String × PyVal)) : Finset String :=
  ((attrs.filter (attrIsBad record)).map Prod.fst).toFinset ∪
    ((datasets.filter (dsIsBad record)).map Prod.fst).toFinset

/-- A concrete rawacf record with dimensions `(1, 1, 2)`, all arrays
present, station `sas`, and the git hash `v10.2` (a two-digit major the
version test does not recognise). -/
def sampleRawacfRec : RawacfRec :=
  { main_acfs := [(Fl.ofInt 1, Fl.ofInt 2), (Fl.ofInt 3, Fl.ofInt 4)]
    intf_acfs := none
    xcfs := some [(Fl.ofInt 5, Fl.ofInt 6), (Fl.ofInt 7, Fl.ofInt 8)]
    correlation_dimensions := (1, 1, 2)
    data_normalization_factor := Fl.ofInt 2
    borealis_git_hash := "v10.2".data
    sqn_timestamps := [Fl.ofInt 0]
    experiment_id := 0
    station := "sas"
    num_sequences := 1
    first_range_rtt := Fl.ofInt 0
    rx_sample_rate := Fl.ofInt 1
    noise_at_freq := [Fl.ofInt 0]
    beam_nums := [5]
    beam_azms := [Fl.ofInt 0]
    scan_start_marker := false
    int_time := Fl.ofInt 0
    tx_pulse_len := Fl.ofInt 1
    tau_spacing := Fl.ofInt 1
    pulses := [2]
    lags := [(0, 0)]
    first_range := Fl.ofInt 0
    range_sep := Fl.ofInt 1
    freq := 0
    blanked_samples := [2] }

/-- The input file name used with `sampleRawacfRec`. -/
def sampleRawacfFname : List Char := "d/x.0.rawacf.hdf5".data

/-- The records the rawacf conversion emits for `sampleRawacfRec`. -/
def sampleRawacfOuts : List DmapRawacfRec :=
  ((convertRawacfRecord sampleRawacfFname sampleRawacfRec).toOption).getD []

/-- `sampleRawacfRec` without the cross-correlation field. -/
def c10RawacfRec : RawacfRec := { sampleRawacfRec with xcfs := none }

/-- `sampleRawacfRec` with a station code absent from `code_to_stid`. -/
def c9RawacfRec : RawacfRec := { sampleRawacfRec with station := "zzz" }

/-- A concrete convertible bfiq record with dimensions `(1, 1, 1, 1)`. -/
def sampleBfiqRec : BfiqRec :=
  { data := [(Fl.ofInt 1, Fl.ofInt 2)]
    data_dimensions := (1, 1, 1, 1)
    data_normalization_factor := Fl.ofInt 1
    borealis_git_hash := "abc".data
    sqn_timestamps := [Fl.ofInt 0]
    experiment_id := 0
    station := "sas"
    num_sequences := 1
    first_range_rtt := Fl.ofInt 0
    rx_sample_rate := Fl.ofInt 1
    noise_at_freq := [Fl.ofInt 0]
    beam_nums := [3]
    beam_azms := [Fl.ofInt 0]
    scan_start_marker := false
    int_time := Fl.ofInt 0
    tx_pulse_len := Fl.ofInt 1
    tau_spacing := Fl.ofInt 1
    pulses := [2]
    lags := [(0, 0)]
    num_ranges := 1
    first_range := Fl.ofInt 0
    range_sep := Fl.ofInt 1
    antenna_arrays_order := ["main"]
    num_samps := 1
    freq := 0
    pulse_phase_offset := [Fl.ofInt 0]
    blanked_samples := [2] }

/-- The input file name used with the bfiq records. -/
def sampleBfiqFname : List Char := "d/x.0.bfiq.hdf5".data

/-- `sampleBfiqRec` with a `blanked_samples` array violating
`pulses * int(tau_spacing / tx_pulse_len)`. -/
def c2BadBfiqRec : BfiqRec := { sampleBfiqRec with blanked_samples := [7] }

/-- `sampleBfiqRec` with a beam number that does not fit in an int16. -/
def c3BfiqRec : BfiqRec := { sampleBfiqRec with beam_nums := [32768] }

/-- The records the iqdat conversion emits for `c3BfiqRec`. -/
def c3Outs : List DmapIqdatRec :=
  ((convertBfiqRecord sampleBfiqFname c3BfiqRec).toOption).getD []

/-- `sampleBfiqRec` with a station code absent from `code_to_stid`. -/
def c9BfiqRec : BfiqRec := { sampleBfiqRec with station := "zzz" }

/-- The schema and record used to exercise the type check with two
simultaneously altered keys (one attribute, one dataset). -/
def c4Attrs : List (String × PyType) := [("x", .tag 0)]

/-- Dataset schema for the type-check witness. -/
def c4Datasets : List (String × PyType) := [("y", .tag 1)]

/-- Record with both declared keys present but of the wrong types. -/
def c4Record : List (String × PyVal) := [("x", .scalar (.tag 2)), ("y", .arr (.tag 3))]

theorem stWrite_length (s : Store) (b i : ℕ) (x : Cx) :
    (stWrite s b i x).length = s.length := by
  simp [stWrite]

theorem foldl_write_length {α : Type} (g : Store → α → Store)
    (hg : ∀ t a, (g t a).length = t.length) (l : List α) :
    ∀ s : Store, (l.foldl g s).length = s.length := by
  induction l with
  | nil => intro s; rfl
  | cons a as ih => intro s; rw [List.foldl_cons, ih, hg]

theorem stSliceAssign_length (s : Store) (dst : ℕ) (dstIdx : List ℕ)
    (src : ℕ) (srcIdx : List ℕ) :
    (stSliceAssign s dst dstIdx src srcIdx).length = s.length := by
  rw [stSliceAssign]
  exact foldl_write_length _
    (fun (t : Store) (p : ℕ × Cx) => stWrite_length t dst p.1 p.2) _ s

theorem stInterleaveFill_length (srcBuf dstBuf count : ℕ) (s : Store) :
    (stInterleaveFill srcBuf dstBuf count s).length = s.length := by
  rw [stInterleaveFill]
  exact foldl_write_length _
    (fun t j => by rw [stWrite_length, stWrite_length]) _ s

theorem stAlloc_fst_length (s : Store) (c : List Cx) :
    (stAlloc s c).1.length = s.length + 1 := by simp [stAlloc]

theorem stAlloc_snd (s : Store) (c : List Cx) : (stAlloc s c).2 = s.length := rfl

theorem stShapeArray_fst_length (s : Store) (src : ℕ) (c : Fl) :
    (stShapeArray s src c).1.length = s.length + 2 := by
  simp [stShapeArray, stAlloc]

theorem stShapeArray_snd (s : Store) (src : ℕ) (c : Fl) :
    (stShapeArray s src c).2 = s.length + 1 := by
  simp [stShapeArray, stAlloc]

theorem preservesOld_refl (s : Store) : PreservesOld s s := ⟨le_rfl, fun _ _ => rfl⟩

theorem getD_append_left {l l' : List (List Cx)} {i : ℕ} (h : i < l.length) :
    (l ++ l').getD i [] = l.getD i [] := by
  simp [List.getD_eq_getElem?_getD, List.getElem?_append, h]

theorem stAlloc_preservesOld {s0 s : Store} (h : PreservesOld s0 s) (buf : List Cx) :
    PreservesOld s0 (stAlloc s buf).1 := by
  obtain ⟨hlen, hold⟩ := h
  refine ⟨by simp only [stAlloc, List.length_append, List.length_singleton]; omega, ?_⟩
  intro i hi
  have hilt : i < s.length := lt_of_lt_of_le hi hlen
  rw [stAlloc]
  exact (getD_append_left hilt).trans (hold i hi)

theorem stWrite_preservesOld {s0 s : Store} {b : ℕ} (hb : s0.length ≤ b)
    (h : PreservesOld s0 s) (i : ℕ) (x : Cx) :
    PreservesOld s0 (stWrite s b i x) := by
  refine ⟨by simpa [stWrite_length] using h.1, ?_⟩
  intro j hj
  have hne : b ≠ j := by omega
  rw [stWrite, List.getD_eq_getElem?_getD, List.getElem?_set_ne hne,
    ← List.getD_eq_getElem?_getD]
  exact h.2 j hj

theorem foldl_preservesOld {α : Type} {s0 : Store} (f : Store → α → Store)
    (l : List α) (hf : ∀ t a, a ∈ l → PreservesOld s0 t → PreservesOld s0 (f t a)) :
    ∀ s, PreservesOld s0 s → PreservesOld s0 (l.foldl f s) := by
  induction l with
  | nil => intro s hs; simpa using hs
  | cons a as ih =>
    intro s hs
    exact ih (fun t b hb ht => hf t b (List.mem_cons_of_mem _ hb) ht) _
      (hf s a (List.mem_cons_self _ _) hs)

theorem stSliceAssign_preservesOld {s0 s : Store} {dst : ℕ}
    (hdst : s0.length ≤ dst) (h : PreservesOld s0 s) (dstIdx : List ℕ)
    (src : ℕ) (srcIdx : List ℕ) :
    PreservesOld s0 (stSliceAssign s dst dstIdx src srcIdx) :=
  foldl_preservesOld _ _ (fun t p _ ht => stWrite_preservesOld hdst ht p.1 p.2) s h

theorem stInterleaveFill_preservesOld {s0 s : Store} {dstBuf : ℕ}
    (hdst : s0.length ≤ dstBuf) (h : PreservesOld s0 s) (srcBuf count : ℕ) :
    PreservesOld s0 (stInterleaveFill srcBuf dstBuf count s) :=
  foldl_preservesOld _ _
    (fun t j _ ht => stWrite_preservesOld hdst (stWrite_preservesOld hdst ht _ _) _ _) s h

theorem stShapeArray_preservesOld {s0 s : Store} (h : PreservesOld s0 s)
    (src : ℕ) (scale : Fl) : PreservesOld s0 (stShapeArray s src scale).1 :=
  stAlloc_preservesOld (stAlloc_preservesOld h _) _

theorem stRawacfKeyBody_preservesOld {s0 s : Store} {buf : ℕ}
    (hbuf : s0.length ≤ buf) (h : PreservesOld s0 s) (R L bi : ℕ) :
    PreservesOld s0 (stRawacfKeyBody R L bi buf s) := by
  obtain ⟨hlen, -⟩ := id h
  simp only [stRawacfKeyBody]
  apply stInterleaveFill_preservesOld
  · rw [stAlloc_snd, stAlloc_fst_length, stSliceAssign_length]
    omega
  · exact stAlloc_preservesOld
      (stAlloc_preservesOld (stSliceAssign_preservesOld hbuf h _ _ _) _) _

theorem stRawacfBeamBody_preservesOld {s0 s : Store} {v : StRawacfRec}
    {mainBuf : ℕ} {otherBufs : List ℕ} (hmain : s0.length ≤ mainBuf)
    (hothers : ∀ b ∈ otherBufs, s0.length ≤ b) (h : PreservesOld s0 s) (bi : ℕ) :
    PreservesOld s0 (stRawacfBeamBody v mainBuf otherBufs bi s) := by
  simp only [stRawacfBeamBody]
  apply stAlloc_preservesOld
  apply stAlloc_preservesOld
  apply stAlloc_preservesOld
  apply foldl_preservesOld
  · intro t b hb ht
    rcases List.mem_cons.mp hb with hb | hb
    · exact stRawacfKeyBody_preservesOld (hb ▸ hmain) ht _ _ _
    · exact stRawacfKeyBody_preservesOld (hothers b hb) ht _ _ _
  · exact stAlloc_preservesOld
      (stSliceAssign_preservesOld hmain h _ _ _) _

theorem stRawacfBeams_preservesOld {s0 : Store} {v : StRawacfRec} {mainBuf : ℕ}
    {otherBufs : List ℕ} (hmain : s0.length ≤ mainBuf)
    (hothers : ∀ b ∈ otherBufs, s0.length ≤ b) {base : Store}
    (hbase : PreservesOld s0 base) :
    PreservesOld s0 ((List.range v.beamCount).foldl
      (fun t bi => stRawacfBeamBody v mainBuf otherBufs bi t) base) :=
  foldl_preservesOld _ _ (fun t bi _ ht =>
    stRawacfBeamBody_preservesOld hmain hothers ht bi) base hbase

theorem stRawacfRecBody_preservesOld {s0 s : Store} (h : PreservesOld s0 s)
    (v : StRawacfRec) : PreservesOld s0 (stRawacfRecBody v s) := by
  obtain ⟨hlen, -⟩ := id h
  rcases hv1 : v.intfBuf with _ | b1 <;> rcases hv2 : v.xcfsBuf with _ | b2 <;>
      simp only [stRawacfRecBody, hv1, hv2, List.cons_append, List.nil_append]
  · exact stRawacfBeams_preservesOld
      (by rw [stShapeArray_snd]; omega)
      (by intro b hb; exact absurd hb (List.not_mem_nil b))
      (stShapeArray_preservesOld h _ _)
  · refine stRawacfBeams_preservesOld
      (by rw [stShapeArray_snd]; omega) ?_
      (stShapeArray_preservesOld (stShapeArray_preservesOld h _ _) _ _)
    intro b hb
    rw [List.mem_singleton] at hb
    subst hb
    rw [stShapeArray_snd, stShapeArray_fst_length]
    omega
  · refine stRawacfBeams_preservesOld
      (by rw [stShapeArray_snd]; omega) ?_
      (stShapeArray_preservesOld (stShapeArray_preservesOld h _ _) _ _)
    intro b hb
    rw [List.mem_singleton] at hb
    subst hb
    rw [stShapeArray_snd, stShapeArray_fst_length]
    omega
  · refine stRawacfBeams_preservesOld
      (by rw [stShapeArray_snd]; omega) ?_
      (stShapeArray_preservesOld
        (stShapeArray_preservesOld (stShapeArray_preservesOld h _ _) _ _) _ _)
    intro b hb
    rcases List.mem_cons.mp hb with hb | hb
    · subst hb
      rw [stShapeArray_snd, stShapeArray_fst_length]
      omega
    · rw [List.mem_singleton] at hb
      subst hb
      rw [stShapeArray_snd, stShapeArray_fst_length, stShapeArray_fst_length]
      omega

theorem stConvertRawacf_preservesOld (records : List StRawacfRec) (s : Store) :
    PreservesOld s (stConvertRawacf records s) :=
  foldl_preservesOld _ _ (fun t v _ ht => stRawacfRecBody_preservesOld ht v) s
    (preservesOld_refl s)

theorem stBfiqSeqLoop_preservesOld {s0 s : Store} (h : PreservesOld s0 s)
    (v : StBfiqRec) (dataBuf bi : ℕ) :
    PreservesOld s0 (stBfiqSeqLoop v dataBuf bi s) := by
  rw [stBfiqSeqLoop]
  exact foldl_preservesOld _ _
    (fun t i _ ht => stAlloc_preservesOld (stAlloc_preservesOld ht _) _) s h

theorem stBfiqBeamBody_preservesOld {s0 s : Store} (h : PreservesOld s0 s)
    (v : StBfiqRec) (dataBuf bi : ℕ) :
    PreservesOld s0 (stBfiqBeamBody v dataBuf bi s) := by
  have h1 := stBfiqSeqLoop_preservesOld h v dataBuf bi
  obtain ⟨h1len, -⟩ := id h1
  simp only [stBfiqBeamBody]
  apply stAlloc_preservesOld
  apply stAlloc_preservesOld
  apply stInterleaveFill_preservesOld
  · rw [stAlloc_snd, stAlloc_fst_length, stAlloc_fst_length]
    omega
  · exact stAlloc_preservesOld (stAlloc_preservesOld (stAlloc_preservesOld h1 _) _) _

theorem stBfiqRecBody_preservesOld {s0 s : Store} (h : PreservesOld s0 s)
    (v : StBfiqRec) : PreservesOld s0 (stBfiqRecBody v s) := by
  simp only [stBfiqRecBody]
  apply foldl_preservesOld _ _ (fun t bi _ ht => stBfiqBeamBody_preservesOld ht v _ bi)
  exact stAlloc_preservesOld (stAlloc_preservesOld (stAlloc_preservesOld h _) _) _

theorem stConvertBfiq_preservesOld (records : List StBfiqRec) (s : Store) :
    PreservesOld s (stConvertBfiq records s) :=
  foldl_preservesOld _ _ (fun t v _ ht => stBfiqRecBody_preservesOld ht v) s
    (preservesOld_refl s)

theorem except_bind_ok_iff {α β : Type} {e : Except PyErr α} {f : α → Except PyErr β}
    {b : β} : (e >>= f) = .ok b ↔ ∃ a, e = .ok a ∧ f a = .ok b := by
  cases e <;> simp [Bind.bind, Except.bind]

theorem except_map_ok_iff {α β : Type} {e : Except PyErr α} {g : α → β} {b : β} :
    e.map g = .ok b ↔ ∃ a, e = .ok a ∧ b = g a := by
  cases e
  · simp [Except.map]
  · simp [Except.map, eq_comm]

theorem dict_list2set_cons (fs : Finset String) (l : List (Finset String)) :
    dict_list2set (fs :: l) = fs ∪ dict_list2set l := by
  have haux : ∀ (l : List (Finset String)) (acc : Finset String),
      l.foldl (fun a b => a ∪ b) acc = acc ∪ dict_list2set l := by
    intro l
    induction l with
    | nil => intro acc; simp [dict_list2set]
    | cons g gs ih =>
      intro acc
      rw [dict_list2set, List.foldl_cons, List.foldl_cons, ih, ih (∅ ∪ g)]
      simp [Finset.union_assoc]
  rw [dict_list2set, List.foldl_cons, haux]
  simp

theorem missing_fold_eq (l : List (Finset String)) (target : Finset String) :
    ∀ acc : Finset String,
      l.foldl (fun acc fs =>
        let diffFields := dict_key_diff fs target
        if diffFields.card ≠ 0 then acc ∪ diffFields else acc) acc
      = acc ∪ (dict_list2set l \ target) := by
  induction l with
  | nil => intro acc; simp [dict_list2set]
  | cons fs l ih =>
    intro acc
    rw [List.foldl_cons, ih, dict_list2set_cons, Finset.union_sdiff_distrib]
    simp only [dict_key_diff]
    by_cases hc : (fs \ target).card ≠ 0
    · rw [if_pos hc, Finset.union_assoc]
    · rw [if_neg hc]
      have h0 : fs \ target = ∅ := Finset.card_eq_zero.mp (by omega)
      rw [h0, Finset.empty_union]

/-- C7: removing any single key from a conformant record makes
`missing_field_check` fail with exactly that key, and the conformant record
itself passes. -/
theorem missing_field_single_key (fileStructList : List (Finset String))
    (recordKeys : Finset String) (recordName : String) (k : String)
    (hconf : recordKeys = dict_list2set fileStructList)
    (hk : k ∈ recordKeys) :
    missing_field_check fileStructList (recordKeys.erase k) recordName =
      .error (.fieldMissing recordName {k}) ∧
    missing_field_check fileStructList recordKeys recordName = .ok () := by
  subst hconf
  have hdiff : dict_list2set fileStructList \ ((dict_list2set fileStructList).erase k) = {k} := by
    ext x
    simp only [Finset.mem_sdiff, Finset.mem_erase, Finset.mem_singleton, not_and]
    constructor
    · rintro ⟨hx, h2⟩
      by_contra hne
      exact (h2 hne) hx
    · rintro rfl
      exact ⟨hk, fun hne => absurd rfl hne⟩
  constructor
  · rw [missing_field_check, missing_fold_eq, hdiff]
    simp
  · rw [missing_field_check, missing_fold_eq]
    simp

theorem attr_scan_eq (record : List (String × PyVal)) (attrs : List (String × PyType))
    (hattr : ∀ pt ∈ attrs, ((record.find? (fun p => p.1 == pt.1)).map Prod.snd).isSome) :
    ∀ acc : List (String × String),
      attrs.foldlM (attrMismatchStep record) acc =
        .ok (acc ++ (attrs.filter (attrIsBad record)).map (fun pt => (pt.1, describeType pt.2))) := by
  induction attrs with
  | nil => intro acc; simp [List.foldlM_nil, pure, Except.pure]
  | cons pt rest ih =>
    intro acc
    obtain ⟨p, hp⟩ : ∃ p, record.find? (fun q => q.1 == pt.1) = some p := by
      have := hattr pt (List.mem_cons_self _ _)
      rcases hfind : record.find? (fun q => q.1 == pt.1) with _ | p
      · rw [hfind] at this; simp at this
      · exact ⟨p, hfind⟩
    have hrest : ∀ q ∈ rest, ((record.find? (fun r => r.1 == q.1)).map Prod.snd).isSome :=
      fun q hq => hattr q (List.mem_cons_of_mem _ hq)
    rw [List.foldlM_cons]
    by_cases hbad : p.2.typeOf = pt.2
    · have hstep : attrMismatchStep record acc pt = .ok acc := by
        rw [attrMismatchStep, pyDictGet, hp]
        simp [Bind.bind, Except.bind, hbad, pure, Except.pure]
      have hflt : attrIsBad record pt = false := by
        rw [attrIsBad, hp]
        simp [hbad]
      rw [hstep]
      simp only [Bind.bind, Except.bind]
      rw [ih hrest acc, List.filter_cons, hflt]
      simp
    · have hstep : attrMismatchStep record acc pt = .ok (acc ++ [(pt.1, describeType pt.2)]) := by
        rw [attrMismatchStep, pyDictGet, hp]
        simp [Bind.bind, Except.bind, hbad, pure, Except.pure]
      have hflt : attrIsBad record pt = true := by
        rw [attrIsBad, hp]
        simp [hbad]
      rw [hstep]
      simp only [Bind.bind, Except.bind]
      rw [ih hrest (acc ++ [(pt.1, describeType pt.2)]), List.filter_cons, hflt]
      simp

theorem ds_scan_eq (record : List (String × PyVal)) (datasets : List (String × PyType))
    (hds : ∀ pt ∈ datasets, ∃ d, (record.find? (fun p => p.1 == pt.1)).map Prod.snd =
      some (.arr d)) :
    ∀ acc : List (String × String),
      datasets.foldlM (datasetMismatchStep record) acc =
        .ok (acc ++ (datasets.filter (dsIsBad record)).map
          (fun pt => (pt.1, "np.ndarray of " ++ describeType pt.2))) := by
  induction datasets with
  | nil => intro acc; simp [List.foldlM_nil, pure, Except.pure]
  | cons pt rest ih =>
    intro acc
    obtain ⟨d, hd⟩ := hds pt (List.mem_cons_self _ _)
    obtain ⟨p, hp, hpv⟩ : ∃ p, record.find? (fun q => q.1 == pt.1) = some p ∧ p.2 = .arr d := by
      rcases hfind : record.find? (fun q => q.1 == pt.1) with _ | p
      · rw [hfind] at hd; simp at hd
      · rw [hfind] at hd
        simp only [Option.map_some'] at hd
        exact ⟨p, hfind, Option.some.inj hd⟩
    have hrest : ∀ q ∈ rest, ∃ e, (record.find? (fun r => r.1 == q.1)).map Prod.snd =
        some (.arr e) := fun q hq => hds q (List.mem_cons_of_mem _ hq)
    rw [List.foldlM_cons]
    by_cases hbad : d = pt.2
    · have hstep : datasetMismatchStep record acc pt = .ok acc := by
        rw [datasetMismatchStep, pyDictGet, hp]
        simp [Bind.bind, Except.bind, hpv, PyVal.dtypeType, hbad, pure, Except.pure]
      have hflt : dsIsBad record pt = false := by
        rw [dsIsBad, hp]
        simp [hpv, hbad]
      rw [hstep]
      simp only [Bind.bind, Except.bind]
      rw [ih hrest acc, List.filter_cons, hflt]
      simp
    · have hstep : datasetMismatchStep record acc pt =
          .ok (acc ++ [(pt.1, "np.ndarray of " ++ describeType pt.2)]) := by
        rw [datasetMismatchStep, pyDictGet, hp]
        simp [Bind.bind, Except.bind, hpv, PyVal.dtypeType, hbad, pure, Except.pure]
      have hflt : dsIsBad record pt = true := by
        rw [dsIsBad, hp]
        simp [hpv, hbad]
      rw [hstep]
      simp only [Bind.bind, Except.bind]
      rw [ih hrest _, List.filter_cons, hflt]
      simp

theorem dictUpdate_keys (a b : List (String × String)) :
    ((dictUpdate a b).map Prod.fst).toFinset =
      (a.map Prod.fst).toFinset ∪ (b.map Prod.fst).toFinset := by
  have hmap : (a.map (fun kv => match b.find? (fun kv2 => kv2.1 == kv.1) with
      | some kv2 => (kv.1, kv2.2)
      | none => kv)).map Prod.fst = a.map Prod.fst := by
    rw [List.map_map]
    apply List.map_congr_left
    intro kv _
    simp only [Function.comp_apply]
    rcases hf : b.find? (fun kv2 => kv2.1 == kv.1) with _ | kv2 <;> rw [hf]
  ext x
  rw [dictUpdate, List.map_append, List.toFinset_append, hmap]
  simp only [Finset.mem_union, List.mem_toFinset, List.mem_map, List.mem_filter]
  constructor
  · rintro (h | ⟨kv, ⟨hkv, -⟩, rfl⟩)
    · exact Or.inl h
    · exact Or.inr ⟨kv, hkv, rfl⟩
  · rintro (h | ⟨kv, hkv, rfl⟩)
    · exact Or.inl h
    · by_cases hin : a.any (fun kv0 => kv0.1 == kv.1)
      · rcases List.any_eq_true.mp hin with ⟨kv0, hkv0, hbeq⟩
        refine Or.inl ⟨kv0, hkv0, ?_⟩
        simpa using hbeq
      · refine Or.inr ⟨kv, ⟨hkv, ?_⟩, rfl⟩
        simp only [Bool.not_eq_true'] at hin ⊢
        exact Bool.not_eq_true _ ▸ (Bool.eq_false_iff.mpr hin)

/-- C4: when every attribute key is present and every dataset key holds an
array, and at least one value violates its declared type,
`incorrect_types_check` completes both scans and fails with a single
`BorealisDataFormatTypeError` whose key mapping contains exactly the
offending keys. -/
theorem incorrect_types_full_scan (attrs datasets : List (String × PyType))
    (record : List (String × PyVal)) (recordName : String)
    (hattr : ∀ pt ∈ attrs, ((record.find? (fun p => p.1 == pt.1)).map Prod.snd).isSome)
    (hds : ∀ pt ∈ datasets, ∃ d, (record.find? (fun p => p.1 == pt.1)).map Prod.snd =
      some (.arr d))
    (hne : typeMismatchKeys attrs datasets record ≠ ∅) :
    incorrect_types_check attrs datasets record recordName =
      .error (.dataFormatType (dictUpdate (attrBadList attrs record)
        (dsBadList datasets record)) recordName) ∧
    (((dictUpdate (attrBadList attrs record) (dsBadList datasets record)).map
        Prod.fst).toFinset = typeMismatchKeys attrs datasets record) := by
  have hkeys : ((dictUpdate (attrBadList attrs record) (dsBadList datasets record)).map
      Prod.fst).toFinset = typeMismatchKeys attrs datasets record := by
    rw [dictUpdate_keys, typeMismatchKeys, attrBadList, dsBadList,
      List.map_map, List.map_map]
    rfl
  refine ⟨?_, hkeys⟩
  have hlen : 0 < (dictUpdate (attrBadList attrs record) (dsBadList datasets record)).length := by
    rcases hempty : dictUpdate (attrBadList attrs record) (dsBadList datasets record) with _ | ⟨p, rest⟩
    · rw [hempty] at hkeys
      simp at hkeys
      exact absurd hkeys.symm hne
    · simp
  rw [incorrect_types_check]
  rw [attr_scan_eq record attrs hattr []]
  simp only [Bind.bind, Except.bind, List.nil_append]
  rw [ds_scan_eq record datasets hds []]
  simp only [List.nil_append]
  rw [← attrBadList, ← dsBadList]
  simp [hlen]

theorem char_digit_toNat_bounds (c : Char) (h : c.isDigit = true) :
    48 ≤ c.toNat ∧ c.toNat ≤ 57 := by
  simp [Char.isDigit] at h
  exact h

theorem mapIdxExcept_ok_length {α β : Type} (f : ℕ → α → Except PyErr β) :
    ∀ (i : ℕ) (l : List α) (out : List β),
      mapIdxExcept f i l = .ok out → out.length = l.length := by
  intro i l
  induction l generalizing i with
  | nil =>
    intro out h
    rw [mapIdxExcept] at h
    cases h
    rfl
  | cons a as ih =>
    intro out h
    rw [mapIdxExcept] at h
    rw [except_bind_ok_iff] at h
    obtain ⟨b, hb, h⟩ := h
    rw [except_bind_ok_iff] at h
    obtain ⟨bs, hbs, h⟩ := h
    cases h
    simpa using ih (i + 1) bs hbs

theorem mapIdxExcept_ok_getD {α β : Type} (f : ℕ → α → Except PyErr β)
    (d1 : α) (d2 : β) :
    ∀ (i : ℕ) (l : List α) (out : List β), mapIdxExcept f i l = .ok out →
      ∀ j, j < l.length → f (i + j) (l.getD j d1) = .ok (out.getD j d2) := by
  intro i l
  induction l generalizing i with
  | nil => intro out _ j hj; simp at hj
  | cons a as ih =>
    intro out h j hj
    rw [mapIdxExcept] at h
    rw [except_bind_ok_iff] at h
    obtain ⟨b, hb, h⟩ := h
    rw [except_bind_ok_iff] at h
    obtain ⟨bs, hbs, h⟩ := h
    cases h
    cases j with
    | zero => simpa using hb
    | succ j' =>
      have := ih (i + 1) bs hbs j' (by simpa using hj)
      have harith : i + 1 + j' = i + (j' + 1) := by omega
      rw [harith] at this
      simpa using this

theorem mapIdxExcept_cons_error {α β : Type} {f : ℕ → α → Except PyErr β}
    {i : ℕ} {a : α} {l : List α} {e : PyErr} (h : f i a = .error e) :
    mapIdxExcept f i (a :: l) = .error e := by
  rw [mapIdxExcept, h]
  rfl

theorem convertRawacfRecord_ok_inv {fnameChars : List Char} {v : RawacfRec}
    {recs : List DmapRawacfRec} (h : convertRawacfRecord fnameChars v = .ok recs) :
    ∃ ver sliceId,
      parseVersionChars v.borealis_git_hash = .ok ver ∧
      pyIdxFromEnd (splitOnChars ['.'] (pyBasenameChars fnameChars)) 3 = .ok sliceId ∧
      mapIdxExcept (fun bi beam => buildRawacfBeam v ver sliceId bi beam) 0 v.beam_nums
        = .ok recs := by
  rw [convertRawacfRecord] at h
  rw [except_bind_ok_iff] at h
  obtain ⟨u1, -, h⟩ := h
  rw [except_bind_ok_iff] at h
  obtain ⟨u2, -, h⟩ := h
  rw [except_bind_ok_iff] at h
  obtain ⟨u3, -, h⟩ := h
  rw [except_bind_ok_iff] at h
  obtain ⟨ver, hver, h⟩ := h
  rw [except_bind_ok_iff] at h
  obtain ⟨sliceId, hslice, h⟩ := h
  exact ⟨ver, sliceId, hver, hslice, h⟩

theorem convertBfiqRecord_ok_inv {fnameChars : List Char} {v : BfiqRec}
    {recs : List DmapIqdatRec} (h : convertBfiqRecord fnameChars v = .ok recs) :
    ∃ ver sliceId,
      parseVersionChars v.borealis_git_hash = .ok ver ∧
      pyIdxFromEnd (splitOnChars ['.'] (pyBasenameChars fnameChars)) 3 = .ok sliceId ∧
      mapIdxExcept (fun bi beam => buildBfiqBeam v ver sliceId bi beam) 0 v.beam_nums
        = .ok recs := by
  rw [convertBfiqRecord] at h
  rw [except_bind_ok_iff] at h
  obtain ⟨u1, -, h⟩ := h
  rw [except_bind_ok_iff] at h
  obtain ⟨ver, hver, h⟩ := h
  rw [except_bind_ok_iff] at h
  obtain ⟨sliceId, hslice, h⟩ := h
  exact ⟨ver, sliceId, hver, hslice, h⟩

theorem rawacfBeamInputs_ok_version {v : RawacfRec} {ver : VersionRaw}
    {sliceId : List Char} {bi : ℕ} {inp : RawacfBeamIn}
    (h : rawacfBeamInputs v ver sliceId bi = .ok inp) :
    versionToInt8 ver = .ok inp.version := by
  rw [rawacfBeamInputs] at h
  rw [except_bind_ok_iff] at h
  obtain ⟨u1, -, h⟩ := h
  rw [except_bind_ok_iff] at h
  obtain ⟨u2, -, h⟩ := h
  rw [except_bind_ok_iff] at h
  obtain ⟨u3, -, h⟩ := h
  rw [except_bind_ok_iff] at h
  obtain ⟨u4, -, h⟩ := h
  rw [except_bind_ok_iff] at h
  obtain ⟨vv, hvv, h⟩ := h
  rw [except_bind_ok_iff] at h
  obtain ⟨t0, -, h⟩ := h
  rw [except_bind_ok_iff] at h
  obtain ⟨st, -, h⟩ := h
  rw [except_bind_ok_iff] at h
  obtain ⟨n0, -, h⟩ := h
  rw [except_bind_ok_iff] at h
  obtain ⟨ch, -, h⟩ := h
  rw [except_bind_ok_iff] at h
  obtain ⟨az, -, h⟩ := h
  rw [except_bind_ok_iff] at h
  obtain ⟨xl, -, h⟩ := h
  cases h
  exact hvv

/-- C5 (amended): the emitted `radar.revision` pair follows `versionSpec`:
single-digit tags `v<d>.<d>...` parse to their two digits, strings that are
nonempty and do not start the `'v'`-then-`'.'` shape yield the int8 sentinel
`-1` (the two's-complement image of 255), and the remaining shapes raise;
on every record a rawacf conversion emits, the `radar.revision` fields are
exactly the `versionSpec` result for the record's `borealis_git_hash`. -/
theorem version_tag_handling :
    (∀ hash : List Char, (parseVersionChars hash >>= versionToInt8) = versionSpec hash) ∧
    (∀ (fnameChars : List Char) (v : RawacfRec) (recs : List DmapRawacfRec) (bi : ℕ),
      convertRawacfRecord fnameChars v = .ok recs → bi < recs.length →
      versionSpec v.borealis_git_hash =
        .ok ((recs.getD bi default).radarRevisionMajor,
             (recs.getD bi default).radarRevisionMinor)) := by
  have hpart1 : ∀ hash : List Char,
      (parseVersionChars hash >>= versionToInt8) = versionSpec hash := by
    intro hash
    match hash with
    | [] => rfl
    | [c0] =>
      by_cases h0 : c0 = 'v' <;>
        simp [parseVersionChars, versionSpec, pyIdx, h0, Bind.bind, Except.bind,
          versionToInt8, toInt8, pure, Except.pure]
    | [c0, c1] =>
      by_cases h0 : c0 = 'v' <;>
        simp [parseVersionChars, versionSpec, pyIdx, h0, Bind.bind, Except.bind,
          versionToInt8, toInt8, pure, Except.pure]
    | [c0, c1, c2] =>
      by_cases h0 : c0 = 'v' <;> by_cases h2 : c2 = '.' <;>
        simp [parseVersionChars, versionSpec, pyIdx, h0, h2, Bind.bind, Except.bind,
          versionToInt8, toInt8, pure, Except.pure]
    | c0 :: c1 :: c2 :: c3 :: rest =>
      by_cases h0 : c0 = 'v' <;> by_cases h2 : c2 = '.' <;>
        by_cases hd1 : c1.isDigit <;> by_cases hd3 : c3.isDigit <;>
        simp [parseVersionChars, versionSpec, pyIdx, h0, h2, hd1, hd3, Bind.bind,
          Except.bind, versionToInt8, versionCharToInt8, parseDigits, toInt8, pure,
          Except.pure] <;>
        (have hb1 := char_digit_toNat_bounds c1 hd1
         have hb3 := char_digit_toNat_bounds c3 hd3
         omega)
  refine ⟨hpart1, ?_⟩
  intro fnameChars v recs bi hok hbi
  obtain ⟨ver, sliceId, hver, hslice, hmap⟩ := convertRawacfRecord_ok_inv hok
  have hlen := mapIdxExcept_ok_length _ _ _ _ hmap
  have hbeam := mapIdxExcept_ok_getD _ 0 default _ _ _ hmap bi (by omega)
  rw [buildRawacfBeam, except_map_ok_iff] at hbeam
  obtain ⟨inp, hinp, hrec⟩ := hbeam
  have hvv := rawacfBeamInputs_ok_version hinp
  rw [← hpart1, hver]
  have hbind : (Except.ok ver >>= versionToInt8) = versionToInt8 ver := rfl
  rw [hbind, hvv, hrec]
  rfl

theorem reshapeCheck_ok {flat : List Cx} {size : ℕ} (h : flat.length = size) :
    reshapeCheck flat size = .ok () := by
  rw [reshapeCheck, if_pos h]

theorem boundsCheck_ok {c : Bool} (h : c = true) : boundsCheck c = .ok () := by
  rw [boundsCheck, if_pos h]

theorem optBoundsCheck_ok {o : Option (List Cx)} {c : Bool} (h : c = true) :
    optBoundsCheck o c = .ok () := by
  cases o <;> simp [optBoundsCheck, boundsCheck_ok h, pure, Except.pure]

theorem convertRawacfRecord_first_beam_error {fnameChars : List Char} {v : RawacfRec}
    {ver : VersionRaw} {sliceId : List Char} {b0 : ℤ} {bs : List ℤ} {e : PyErr}
    (hmain : v.main_acfs.length = v.correlation_dimensions.1 *
      (v.correlation_dimensions.2.1 * v.correlation_dimensions.2.2))
    (hintf : optReshapeCheck v.intf_acfs (v.correlation_dimensions.1 *
      (v.correlation_dimensions.2.1 * v.correlation_dimensions.2.2)) = .ok ())
    (hxcfs : optReshapeCheck v.xcfs (v.correlation_dimensions.1 *
      (v.correlation_dimensions.2.1 * v.correlation_dimensions.2.2)) = .ok ())
    (hver : parseVersionChars v.borealis_git_hash = .ok ver)
    (hslice : pyIdxFromEnd (splitOnChars ['.'] (pyBasenameChars fnameChars)) 3 =
      .ok sliceId)
    (hbeams : v.beam_nums = b0 :: bs)
    (hbeam : buildRawacfBeam v ver sliceId 0 b0 = .error e) :
    convertRawacfRecord fnameChars v = .error e := by
  rw [convertRawacfRecord, reshapeCheck_ok hmain, hintf, hxcfs, hver, hslice, hbeams]
  simp only [Bind.bind, Except.bind]
  exact mapIdxExcept_cons_error hbeam

theorem convertBfiqRecord_first_beam_error {fnameChars : List Char} {v : BfiqRec}
    {ver : VersionRaw} {sliceId : List Char} {b0 : ℤ} {bs : List ℤ} {e : PyErr}
    (hdata : v.data.length = v.data_dimensions.1 * (v.data_dimensions.2.1 *
      (v.data_dimensions.2.2.1 * v.data_dimensions.2.2.2)))
    (hver : parseVersionChars v.borealis_git_hash = .ok ver)
    (hslice : pyIdxFromEnd (splitOnChars ['.'] (pyBasenameChars fnameChars)) 3 =
      .ok sliceId)
    (hbeams : v.beam_nums = b0 :: bs)
    (hbeam : buildBfiqBeam v ver sliceId 0 b0 = .error e) :
    convertBfiqRecord fnameChars v = .error e := by
  rw [convertBfiqRecord, reshapeCheck_ok hdata, hver, hslice, hbeams]
  simp only [Bind.bind, Except.bind]
  exact mapIdxExcept_cons_error hbeam

theorem stid_lookup_fails {station : String}
    (hstation : ∀ p ∈ code_to_stid, p.1 ≠ station) :
    pyDictGet code_to_stid station = (.error (.keyError station) : Except PyErr ℤ) := by
  have hfind : code_to_stid.find? (fun p => p.1 == station) = none := by
    rw [List.find?_eq_none]
    intro p hp
    simpa using hstation p hp
  rw [pyDictGet, hfind]

theorem rawacfBeamInputs_station_error {v : RawacfRec} {ver : VersionRaw}
    {sliceId : List Char} {vv : ℤ × ℤ} {t0 : Fl}
    (hB : 0 < v.correlation_dimensions.1) (hL : 2 ≤ v.correlation_dimensions.2.2)
    (hcast : versionToInt8 ver = .ok vv)
    (hts : pyIdx v.sqn_timestamps 0 = .ok t0)
    (hstation : ∀ p ∈ code_to_stid, p.1 ≠ v.station) :
    rawacfBeamInputs v ver sliceId 0 = .error (.keyError v.station) := by
  have hcond1 : (decide (0 < v.correlation_dimensions.1) &&
      decide (1 ≤ v.correlation_dimensions.2.2)) = true := by
    simp only [Bool.and_eq_true, decide_eq_true_eq]
    exact ⟨hB, by omega⟩
  have hcond2 : (decide (0 < v.correlation_dimensions.1) &&
      decide (2 ≤ v.correlation_dimensions.2.2)) = true := by
    simp only [Bool.and_eq_true, decide_eq_true_eq]
    exact ⟨hB, hL⟩
  rw [rawacfBeamInputs, boundsCheck_ok hcond1, boundsCheck_ok hcond2,
    optBoundsCheck_ok hcond2, optBoundsCheck_ok hcond2, hcast, hts,
    stid_lookup_fails hstation]
  rfl

theorem bfiqBeamInputs_station_error {v : BfiqRec} {ver : VersionRaw}
    {sliceId : List Char} {vv : ℤ × ℤ} {t0 : Fl}
    (hBm : 0 < v.data_dimensions.2.2.1)
    (hseq : bfiqSeqChecks v.data_dimensions.1 v.data_dimensions.2.1
      v.num_sequences = .ok ())
    (hcast : versionToInt8 ver = .ok vv)
    (hts : pyIdx v.sqn_timestamps 0 = .ok t0)
    (hstation : ∀ p ∈ code_to_stid, p.1 ≠ v.station) :
    bfiqBeamInputs v ver sliceId 0 = .error (.keyError v.station) := by
  have hcond : decide (0 < v.data_dimensions.2.2.1) = true := by
    simp [hBm]
  rw [bfiqBeamInputs, boundsCheck_ok hcond, hseq, hcast, hts,
    stid_lookup_fails hstation]
  rfl

theorem buildRawacfBeam_error {v : RawacfRec} {ver : VersionRaw}
    {sliceId : List Char} {bi : ℕ} {beam : ℤ} {e : PyErr}
    (h : rawacfBeamInputs v ver sliceId bi = .error e) :
    buildRawacfBeam v ver sliceId bi beam = .error e := by
  rw [buildRawacfBeam, h]
  rfl

theorem buildBfiqBeam_error {v : BfiqRec} {ver : VersionRaw}
    {sliceId : List Char} {bi : ℕ} {beam : ℤ} {e : PyErr}
    (h : bfiqBeamInputs v ver sliceId bi = .error e) :
    buildBfiqBeam v ver sliceId bi beam = .error e := by
  rw [buildBfiqBeam, h]
  rfl

/-- C9: a record whose station code is absent from `code_to_stid` makes both
conversion paths fail with the lookup failure (Python `KeyError`, the fatal
failure that identifies the unknown station), provided the record reaches
the per-beam station lookup: its arrays reshape, its version tag and slice
id parse, it has at least one beam, the view indexing is in bounds, and the
first-sequence timestamp exists.  The source has no dedicated exception
class for this; the `KeyError` escaping `code_to_stid[v['station']]` is the
unknown-station failure. -/
theorem unknown_station_conversion_error :
    (∀ (fnameChars : List Char) (v : RawacfRec) (ver : VersionRaw)
       (sliceId : List Char) (vv : ℤ × ℤ) (t0 : Fl) (b0 : ℤ) (bs : List ℤ),
      v.main_acfs.length = v.correlation_dimensions.1 *
        (v.correlation_dimensions.2.1 * v.correlation_dimensions.2.2) →
      optReshapeCheck v.intf_acfs (v.correlation_dimensions.1 *
        (v.correlation_dimensions.2.1 * v.correlation_dimensions.2.2)) = .ok () →
      optReshapeCheck v.xcfs (v.correlation_dimensions.1 *
        (v.correlation_dimensions.2.1 * v.correlation_dimensions.2.2)) = .ok () →
      parseVersionChars v.borealis_git_hash = .ok ver →
      pyIdxFromEnd (splitOnChars ['.'] (pyBasenameChars fnameChars)) 3 = .ok sliceId →
      v.beam_nums = b0 :: bs →
      0 < v.correlation_dimensions.1 → 2 ≤ v.correlation_dimensions.2.2 →
      versionToInt8 ver = .ok vv →
      pyIdx v.sqn_timestamps 0 = .ok t0 →
      (∀ p ∈ code_to_stid, p.1 ≠ v.station) →
      convertRawacfRecord fnameChars v = .error (.keyError v.station)) ∧
    (∀ (fnameChars : List Char) (v : BfiqRec) (ver : VersionRaw)
       (sliceId : List Char) (vv : ℤ × ℤ) (t0 : Fl) (b0 : ℤ) (bs : List ℤ),
      v.data.length = v.data_dimensions.1 * (v.data_dimensions.2.1 *
        (v.data_dimensions.2.2.1 * v.data_dimensions.2.2.2)) →
      parseVersionChars v.borealis_git_hash = .ok ver →
      pyIdxFromEnd (splitOnChars ['.'] (pyBasenameChars fnameChars)) 3 = .ok sliceId →
      v.beam_nums = b0 :: bs →
      0 < v.data_dimensions.2.2.1 →
      bfiqSeqChecks v.data_dimensions.1 v.data_dimensions.2.1 v.num_sequences = .ok () →
      versionToInt8 ver = .ok vv →
      pyIdx v.sqn_timestamps 0 = .ok t0 →
      (∀ p ∈ code_to_stid, p.1 ≠ v.station) →
      convertBfiqRecord fnameChars v = .error (.keyError v.station)) := by
  constructor
  · intro fnameChars v ver sliceId vv t0 b0 bs hmain hintf hxcfs hver hslice hbeams
      hB hL hcast hts hstation
    exact convertRawacfRecord_first_beam_error hmain hintf hxcfs hver hslice hbeams
      (buildRawacfBeam_error (rawacfBeamInputs_station_error hB hL hcast hts hstation))
  · intro fnameChars v ver sliceId vv t0 b0 bs hdata hver hslice hbeams hBm hseq
      hcast hts hstation
    exact convertBfiqRecord_first_beam_error hdata hver hslice hbeams
      (buildBfiqBeam_error (bfiqBeamInputs_station_error hBm hseq hcast hts hstation))

theorem rawacfBeamInputs_xcfs_error {v : RawacfRec} {ver : VersionRaw}
    {sliceId : List Char} {vv : ℤ × ℤ} {t0 : Fl} {st : ℤ} {n0 : Fl} {ch : ℤ} {az : Fl}
    (hB : 0 < v.correlation_dimensions.1) (hL : 2 ≤ v.correlation_dimensions.2.2)
    (hcast : versionToInt8 ver = .ok vv)
    (hts : pyIdx v.sqn_timestamps 0 = .ok t0)
    (hst : pyDictGet code_to_stid v.station = .ok st)
    (hnoise : pyIdx v.noise_at_freq 0 = .ok n0)
    (hchan : parseDigits sliceId = .ok ch)
    (hazm : pyIdx v.beam_azms 0 = .ok az)
    (hnone : v.xcfs = none) :
    rawacfBeamInputs v ver sliceId 0 = .error (.keyError "xcfs") := by
  have hcond1 : (decide (0 < v.correlation_dimensions.1) &&
      decide (1 ≤ v.correlation_dimensions.2.2)) = true := by
    simp only [Bool.and_eq_true, decide_eq_true_eq]
    exact ⟨hB, by omega⟩
  have hcond2 : (decide (0 < v.correlation_dimensions.1) &&
      decide (2 ≤ v.correlation_dimensions.2.2)) = true := by
    simp only [Bool.and_eq_true, decide_eq_true_eq]
    exact ⟨hB, hL⟩
  have hlook : xcfsLookup v 0 = .error (.keyError "xcfs") := by
    rw [xcfsLookup, hnone]
  rw [rawacfBeamInputs, boundsCheck_ok hcond1, boundsCheck_ok hcond2,
    optBoundsCheck_ok hcond2, optBoundsCheck_ok hcond2, hcast, hts, hst, hnoise,
    hchan, hazm, hlook]
  rfl

/-- C10: a rawacf record lacking the `xcfs` field cannot be converted: the
`xcf` flag records the absence, but the emitted dictionary unconditionally
reads `correlation_dict['xcfs']` for the `xcfd` entry, so building the first
beam's record raises `KeyError('xcfs')`, under the same reaching conditions
as the station lookup plus success of the lookups evaluated before `xcfd`. -/
theorem missing_xcfs_conversion_error (fnameChars : List Char) (v : RawacfRec)
    (ver : VersionRaw) (sliceId : List Char) (vv : ℤ × ℤ) (t0 : Fl) (st : ℤ)
    (n0 : Fl) (ch : ℤ) (az : Fl) (b0 : ℤ) (bs : List ℤ)
    (hmain : v.main_acfs.length = v.correlation_dimensions.1 *
      (v.correlation_dimensions.2.1 * v.correlation_dimensions.2.2))
    (hintf : optReshapeCheck v.intf_acfs (v.correlation_dimensions.1 *
      (v.correlation_dimensions.2.1 * v.correlation_dimensions.2.2)) = .ok ())
    (hver : parseVersionChars v.borealis_git_hash = .ok ver)
    (hslice : pyIdxFromEnd (splitOnChars ['.'] (pyBasenameChars fnameChars)) 3 =
      .ok sliceId)
    (hbeams : v.beam_nums = b0 :: bs)
    (hB : 0 < v.correlation_dimensions.1) (hL : 2 ≤ v.correlation_dimensions.2.2)
    (hcast : versionToInt8 ver = .ok vv)
    (hts : pyIdx v.sqn_timestamps 0 = .ok t0)
    (hst : pyDictGet code_to_stid v.station = .ok st)
    (hnoise : pyIdx v.noise_at_freq 0 = .ok n0)
    (hchan : parseDigits sliceId = .ok ch)
    (hazm : pyIdx v.beam_azms 0 = .ok az)
    (hnone : v.xcfs = none) :
    convertRawacfRecord fnameChars v = .error (.keyError "xcfs") := by
  have hxcfs : optReshapeCheck v.xcfs (v.correlation_dimensions.1 *
      (v.correlation_dimensions.2.1 * v.correlation_dimensions.2.2)) = .ok () := by
    rw [hnone]
    rfl
  exact convertRawacfRecord_first_beam_error hmain hintf hxcfs hver hslice hbeams
    (buildRawacfBeam_error
      (rawacfBeamInputs_xcfs_error hB hL hcast hts hst hnoise hchan hazm hnone))

theorem assignLastN_map_range {α : Type} (m : ℕ) (f g : ℕ → α) (R : ℕ) :
    assignLastN m ((List.range R).map f) ((List.range R).map g) =
      (List.range R).map (fun i => if R - m ≤ i then g i else f i) := by
  apply List.ext_getElem
  · simp only [assignLastN, List.length_append, List.length_take, List.length_drop,
      List.length_map, List.length_range]
    omega
  · intro i h1 h2
    simp only [assignLastN, List.length_map, List.length_range] at h1 h2 ⊢
    by_cases hc : i < R - m
    · rw [List.getElem_append_left (by simp; omega)]
      rw [List.getElem_take]
      rw [List.getElem_map, List.getElem_range, List.getElem_map, List.getElem_range]
      rw [if_neg (by omega)]
    · rw [List.getElem_append_right (by simp; omega)]
      rw [List.getElem_drop]
      rw [List.getElem_map, List.getElem_range, List.getElem_map, List.getElem_range]
      have hidx : R - m +
          (i - (List.take (R - m) (List.map f (List.range R))).length) = i := by
        simp only [List.length_take, List.length_map, List.length_range]
        omega
      rw [hidx, if_pos (by omega)]

/-- C1: on every record a rawacf conversion emits, the squared lag-zero
power at range `i` is the squared magnitude of the rescaled
`main_acfs[beam, i, -1]` (the alternate lag-zero) for the last 10 ranges and
of the rescaled `main_acfs[beam, i, 0]` for every other range; since taking
the square root is injective on nonnegative reals, the emitted `pwr0`
entries (square roots of these values, stored as float) compare exactly the
same way. -/
theorem pwr0_alternate_lag_substitution (fnameChars : List Char) (v : RawacfRec)
    (recs : List DmapRawacfRec)
    (h : convertRawacfRecord fnameChars v = .ok recs) (bi : ℕ)
    (hbi : bi < recs.length) :
    (recs.getD bi default).pwr0Sq =
      (List.range v.correlation_dimensions.2.1).map (fun i =>
        magSq (shapedAt v v.main_acfs bi i
          (if v.correlation_dimensions.2.1 - 10 ≤ i then
            v.correlation_dimensions.2.2 - 1 else 0))) := by
  obtain ⟨ver, sliceId, hver, hslice, hmap⟩ := convertRawacfRecord_ok_inv h
  have hlen := mapIdxExcept_ok_length _ _ _ _ hmap
  have hbeam := mapIdxExcept_ok_getD _ 0 default _ _ _ hmap bi (by omega)
  rw [Nat.zero_add] at hbeam
  rw [buildRawacfBeam, except_map_ok_iff] at hbeam
  obtain ⟨inp, -, hrec⟩ := hbeam
  rw [hrec]
  have hproj : (mkRawacfBeamRec v bi (v.beam_nums.getD bi 0) inp).pwr0Sq =
      (lagZeroCorrected v bi).map magSq := rfl
  rw [hproj]
  rw [lagZeroCorrected, assignLastN_map_range, List.map_map]
  apply List.map_congr_left
  intro i _
  simp only [Function.comp_apply]
  by_cases hc : v.correlation_dimensions.2.1 - 10 ≤ i
  · rw [if_pos hc, if_pos hc]
  · rw [if_neg hc, if_neg hc]

/-- C3 (amended): a convertible bfiq record emits exactly one iqdat record
per entry of `beam_nums`, in order, and the `i`-th emitted `bmnum` is the
`i`-th beam number reduced to int16 (`np.int16(beam)`); the reduction is the
identity for beam numbers below 32768 and wraps for larger ones. -/
theorem beam_fanout_bmnum (fnameChars : List Char) (v : BfiqRec)
    (recs : List DmapIqdatRec) (h : convertBfiqRecord fnameChars v = .ok recs) :
    recs.length = v.beam_nums.length ∧
    ∀ i, i < recs.length →
      (recs.getD i default).bmnum = toInt16 (v.beam_nums.getD i 0) := by
  obtain ⟨ver, sliceId, hver, hslice, hmap⟩ := convertBfiqRecord_ok_inv h
  have hlen := mapIdxExcept_ok_length _ _ _ _ hmap
  refine ⟨hlen, ?_⟩
  intro i hi
  have hbeam := mapIdxExcept_ok_getD _ 0 default _ _ _ hmap i (by omega)
  rw [Nat.zero_add] at hbeam
  rw [buildBfiqBeam, except_map_ok_iff] at hbeam
  obtain ⟨inp, -, hrec⟩ := hbeam
  rw [hrec]
  rfl

theorem iqdat_check_first_blanked :
    ∀ (records : List (String × BfiqRec)) (kv0 : String × BfiqRec),
      (∀ kv ∈ records, bfiqPhaseOk kv.2 = true) →
      records.find? (fun kv => ! bfiqBlankedOk kv.2) = some kv0 →
      records.foldlM (fun _ kv =>
        if bfiqBlankedOk kv.2 then
          if bfiqPhaseOk kv.2 then Except.ok ()
          else .error (.convert2IqdatPhase kv.1)
        else .error (.convert2IqdatBlanked kv.1)) () =
        (.error (.convert2IqdatBlanked kv0.1) : Except PyErr Unit) := by
  intro records
  induction records with
  | nil => intro kv0 _ hfind; simp at hfind
  | cons kv rest ih =>
    intro kv0 hphase hfind
    rw [List.foldlM_cons]
    by_cases hb : bfiqBlankedOk kv.2 = true
    · simp only [List.find?_cons, hb, Bool.not_true] at hfind
      have hphead : bfiqPhaseOk kv.2 = true := hphase kv (List.mem_cons_self _ _)
      rw [if_pos hb, if_pos hphead]
      simp only [Bind.bind, Except.bind]
      exact ih kv0 (fun q hq => hphase q (List.mem_cons_of_mem _ hq)) hfind
    · rw [Bool.not_eq_true] at hb
      simp only [List.find?_cons, hb, Bool.not_false, Option.some.injEq] at hfind
      subst hfind
      rw [if_neg (by simp [hb])]
      rfl

/-- C2: a bfiq collection whose records all have zero pulse phase offsets
but where some record violates `blanked_samples == pulses *
int(tau_spacing/tx_pulse_len)` makes the whole iqdat conversion fail with
`BorealisConvert2IqdatError` naming the first violating record; the check
runs before any record is converted, so no output record is produced. -/
theorem blanked_mismatch_aborts_iqdat (fnameChars : List Char)
    (records : List (String × BfiqRec)) (kv0 : String × BfiqRec)
    (horigin : extractOriginFiletype fnameChars = .ok "bfiq".data)
    (hphase : ∀ kv ∈ records, bfiqPhaseOk kv.2 = true)
    (hfind : records.find? (fun kv => ! bfiqBlankedOk kv.2) = some kv0) :
    convertRecordsToDmapIqdat fnameChars records =
      .error (.convert2IqdatBlanked kv0.1) := by
  rw [convertRecordsToDmapIqdat, horigin]
  simp only [Bind.bind, Except.bind]
  rw [isConvertibleToIqdat]
  rw [show String.mk "bfiq".data = "bfiq" from rfl]
  rw [if_neg (by simp)]
  rw [iqdat_check_first_blanked records kv0 hphase hfind]
  rfl

/-- C8: when the computed or caller-supplied output name equals the input
name, both conversion entry points stop before any read, conversion or
write; the source reaches `raise ConvertFileOverWriteError(filename)` but
that name is never imported or defined in the module, so the escaping
exception is Python's `NameError`, not the intended overwrite error.  The
error result carries no output, so nothing is emitted or written. -/
theorem overwrite_collision_raises_nameerror :
    (∀ (fnameChars : List Char) (kw : Option (List Char))
       (contents : List (String × BfiqRec)),
      kw.getD (computeDmapFilename fnameChars) = fnameChars →
      bfiq2darniqdat fnameChars kw contents =
        .error (.nameError "ConvertFileOverWriteError")) ∧
    (∀ (fnameChars : List Char) (kw : Option (List Char))
       (contents : List (String × RawacfRec)),
      kw.getD (computeDmapFilename fnameChars) = fnameChars →
      rawacf2darnrawacf fnameChars kw contents =
        .error (.nameError "ConvertFileOverWriteError")) := by
  constructor
  · intro fnameChars kw contents h
    rw [bfiq2darniqdat, if_pos h]
  · intro fnameChars kw contents h
    rw [rawacf2darnrawacf, if_pos h]

/-- C6: neither conversion path mutates any buffer that existed before the
conversion ran: in the heap model, every pre-existing buffer (in particular
every input record's array) holds the same contents afterwards, for any
record collections and any starting heap.  The in-place alternate lag-zero
substitutions land on the buffers freshly allocated by the
`astype`/rescaling chain, never on the input arrays. -/
theorem conversion_never_mutates_inputs (rawacfRecords : List StRawacfRec)
    (bfiqRecords : List StBfiqRec) (s0 : Store) :
    PreservesOld s0 (stConvertRawacf rawacfRecords s0) ∧
    PreservesOld s0 (stConvertBfiq bfiqRecords s0) :=
  ⟨stConvertRawacf_preservesOld rawacfRecords s0,
   stConvertBfiq_preservesOld bfiqRecords s0⟩

/-- Witness for C7 at a concrete schema pair and record. -/
theorem missing_field_single_key_witness :
    ({"a", "b", "c"} : Finset String) = dict_list2set [{"a", "b"}, {"c"}] ∧
    "b" ∈ ({"a", "b", "c"} : Finset String) ∧
    missing_field_check [{"a", "b"}, {"c"}] (({"a", "b", "c"} : Finset String).erase "b")
      "rec" = .error (.fieldMissing "rec" {"b"}) ∧
    missing_field_check [{"a", "b"}, {"c"}] {"a", "b", "c"} "rec" = .ok () := by
  refine ⟨by decide, by decide, ?_, ?_⟩
  · exact (missing_field_single_key _ _ "rec" "b" (by decide) (by decide)).1
  · exact (missing_field_single_key _ _ "rec" "b" (by decide) (by decide)).2

/-- Witness for C4 at a concrete schema pair and record with two altered
keys. -/
theorem incorrect_types_full_scan_witness :
    typeMismatchKeys c4Attrs c4Datasets c4Record ≠ ∅ ∧
    incorrect_types_check c4Attrs c4Datasets c4Record "rec" =
      .error (.dataFormatType (dictUpdate (attrBadList c4Attrs c4Record)
        (dsBadList c4Datasets c4Record)) "rec") ∧
    ((dictUpdate (attrBadList c4Attrs c4Record) (dsBadList c4Datasets c4Record)).map
      Prod.fst).toFinset = typeMismatchKeys c4Attrs c4Datasets c4Record := by
  have h := incorrect_types_full_scan c4Attrs c4Datasets c4Record "rec"
    (by decide)
    (fun pt hpt => by
      rcases List.mem_singleton.mp hpt with rfl
      exact ⟨.tag 3, by decide⟩)
    (by decide)
  exact ⟨by decide, h.1, h.2⟩

/-- C5 counterexample: the tag `v10.2` has the claimed `v<major>.<minor>`
form with major 10 and minor 2, but conversion emits the int8 sentinel
`-1`/`-1` (the two's-complement image of 255), because the test only accepts
`'.'` at index 2. -/
theorem version_tag_handling_counterexample :
    sampleRawacfRec.borealis_git_hash = "v10.2".data ∧
    (convertRawacfRecord sampleRawacfFname sampleRawacfRec).map
        (fun rs => rs.map (fun r => (r.radarRevisionMajor, r.radarRevisionMinor))) =
      .ok [(-1, -1)] ∧
    ((Except.ok [((-1 : ℤ), (-1 : ℤ))] : Except PyErr (List (ℤ × ℤ))) ≠ .ok [(10, 2)]) := by
  refine ⟨by decide, by decide, by decide⟩

/-- Witness for C5 at a concrete record. -/
theorem version_tag_handling_witness :
    convertRawacfRecord sampleRawacfFname sampleRawacfRec = .ok sampleRawacfOuts ∧
    0 < sampleRawacfOuts.length ∧
    versionSpec sampleRawacfRec.borealis_git_hash =
      .ok ((sampleRawacfOuts.getD 0 default).radarRevisionMajor,
           (sampleRawacfOuts.getD 0 default).radarRevisionMinor) :=
  ⟨by decide, by decide, version_tag_handling.2 sampleRawacfFname sampleRawacfRec
    sampleRawacfOuts 0 (by decide) (by decide)⟩

/-- Witness for C1 at a concrete record. -/
theorem pwr0_alternate_lag_substitution_witness :
    convertRawacfRecord sampleRawacfFname sampleRawacfRec = .ok sampleRawacfOuts ∧
    0 < sampleRawacfOuts.length ∧
    (sampleRawacfOuts.getD 0 default).pwr0Sq =
      (List.range sampleRawacfRec.correlation_dimensions.2.1).map (fun i =>
        magSq (shapedAt sampleRawacfRec sampleRawacfRec.main_acfs 0 i
          (if sampleRawacfRec.correlation_dimensions.2.1 - 10 ≤ i then
            sampleRawacfRec.correlation_dimensions.2.2 - 1 else 0))) :=
  ⟨by decide, by decide,
   pwr0_alternate_lag_substitution sampleRawacfFname sampleRawacfRec sampleRawacfOuts
     (by decide) 0 (by decide)⟩

/-- C3 counterexample: the record is convertible (its `blanked_samples` and
`pulse_phase_offset` checks pass) and holds the single beam number 32768,
but the emitted `bmnum` is the wrapped int16 `-32768`, not 32768. -/
theorem beam_fanout_bmnum_counterexample :
    c3BfiqRec.beam_nums = [32768] ∧
    (convertRecordsToDmapIqdat sampleBfiqFname [("r1", c3BfiqRec)]).map
        (fun rs => rs.map (fun r => r.bmnum)) = .ok [-32768] ∧
    ((Except.ok [(-32768 : ℤ)] : Except PyErr (List ℤ)) ≠ .ok [32768]) := by
  refine ⟨by decide, by decide, by decide⟩

/-- Witness for the amended C3 at a concrete record. -/
theorem beam_fanout_bmnum_witness :
    convertBfiqRecord sampleBfiqFname c3BfiqRec = .ok c3Outs ∧
    c3Outs.length = c3BfiqRec.beam_nums.length ∧
    0 < c3Outs.length ∧
    (c3Outs.getD 0 default).bmnum = toInt16 (c3BfiqRec.beam_nums.getD 0 0) := by
  refine ⟨by decide, ?_, by decide, ?_⟩
  · exact (beam_fanout_bmnum sampleBfiqFname c3BfiqRec c3Outs (by decide)).1
  · exact (beam_fanout_bmnum sampleBfiqFname c3BfiqRec c3Outs (by decide)).2 0 (by decide)

/-- Witness for C2: a collection with one convertible record followed by a
record violating the `blanked_samples` invariant. -/
theorem blanked_mismatch_aborts_iqdat_witness :
    extractOriginFiletype sampleBfiqFname = .ok "bfiq".data ∧
    (∀ kv ∈ [("good", sampleBfiqRec), ("bad", c2BadBfiqRec)], bfiqPhaseOk kv.2 = true) ∧
    [("good", sampleBfiqRec), ("bad", c2BadBfiqRec)].find?
      (fun kv => ! bfiqBlankedOk kv.2) = some ("bad", c2BadBfiqRec) ∧
    convertRecordsToDmapIqdat sampleBfiqFname
      [("good", sampleBfiqRec), ("bad", c2BadBfiqRec)] =
      .error (.convert2IqdatBlanked "bad") :=
  ⟨by decide, by decide, by decide,
   blanked_mismatch_aborts_iqdat sampleBfiqFname
     [("good", sampleBfiqRec), ("bad", c2BadBfiqRec)] ("bad", c2BadBfiqRec)
     (by decide) (by decide) (by decide)⟩

/-- Witness for C9 at concrete records with the unknown station `zzz`, for
both conversion paths. -/
theorem unknown_station_conversion_error_witness :
    (∀ p ∈ code_to_stid, p.1 ≠ c9RawacfRec.station) ∧
    convertRawacfRecord sampleRawacfFname c9RawacfRec =
      .error (.keyError c9RawacfRec.station) ∧
    convertBfiqRecord sampleBfiqFname c9BfiqRec =
      .error (.keyError c9BfiqRec.station) :=
  ⟨by decide,
   unknown_station_conversion_error.1 sampleRawacfFname c9RawacfRec .sentinel
     "0".data (-1, -1) (Fl.ofInt 0) 5 [] (by decide) (by decide) (by decide)
     (by decide) (by decide) (by decide) (by decide) (by decide) (by decide)
     (by decide) (by decide),
   unknown_station_conversion_error.2 sampleBfiqFname c9BfiqRec .sentinel
     "0".data (-1, -1) (Fl.ofInt 0) 3 [] (by decide) (by decide) (by decide)
     (by decide) (by decide) (by decide) (by decide) (by decide) (by decide)⟩

/-- Witness for C10 at a concrete record lacking `xcfs`. -/
theorem missing_xcfs_conversion_error_witness :
    c10RawacfRec.xcfs = none ∧
    convertRawacfRecord sampleRawacfFname c10RawacfRec = .error (.keyError "xcfs") :=
  ⟨by decide,
   missing_xcfs_conversion_error sampleRawacfFname c10RawacfRec .sentinel "0".data
     (-1, -1) (Fl.ofInt 0) 5 (Fl.ofInt 0) 0 (Fl.ofInt 0) 5 [] (by decide) (by decide)
     (by decide) (by decide) (by decide) (by decide) (by decide) (by decide)
     (by decide) (by decide) (by decide) (by decide) (by decide) (by decide)⟩

/-- Witness for C8 at concrete colliding paths (computed collision for both
entry points). -/
theorem overwrite_collision_raises_nameerror_witness :
    (none : Option (List Char)).getD (computeDmapFilename "d/x.bfiq.dat".data) =
      "d/x.bfiq.dat".data ∧
    bfiq2darniqdat "d/x.bfiq.dat".data none [] =
      .error (.nameError "ConvertFileOverWriteError") ∧
    rawacf2darnrawacf "d/x.rawacf.dat".data none [] =
      .error (.nameError "ConvertFileOverWriteError") :=
  ⟨by decide,
   overwrite_collision_raises_nameerror.1 "d/x.bfiq.dat".data none [] (by decide),
   overwrite_collision_raises_nameerror.2 "d/x.rawacf.dat".data none [] (by decide)⟩

end BorealisPy
